import Mathlib

/-!
# Verification of the tfrc weewx driver (`bin/user/tfrc.py`)

Shallow embedding of the ingestion/parsing/mapping pipeline of the tfrc
driver: the packet parser registry (regex-based telegram parsing), the
identifier router (`_find_match` / `map_to_fields` with fnmatch-style glob
semantics), the delta engine (`_calculate_deltas`), and the driver loop's
duplicate suppression (`genLoopPackets`).

Python dictionaries are modelled as association lists whose list order
stands for the dictionary's iteration order; Python numeric values are
modelled exactly (floats as rationals -- every value the driver handles is
decimal), and Python exceptions are modelled with `Except`.
-/

/-- Python runtime errors that the modelled code can raise. -/
inductive PyErr where
  | valueError
  | typeError
  | keyError
  | indexError
deriving DecidableEq, Repr

/-- A Python float, modelled as an exact fraction numerator/denominator
(every value the driver handles is a small decimal).  Kept as a plain
pair so that all arithmetic reduces inside the kernel; every fraction the
model constructs has a positive denominator and is normalized by
`mkNum`. -/
abbrev PyNum := ℤ × ℕ

/-- Build a normalized fraction (callers always pass a positive
denominator). -/
def mkNum (n : ℤ) (d : ℕ) : PyNum :=
  let g := n.natAbs.gcd d
  (n / (g : ℤ), d / g)

/-- The rational value of a fraction. -/
def toQ (p : PyNum) : ℚ := (p.1 : ℚ) / (p.2 : ℚ)

/-- The canonical fraction of a rational. -/
def ofQ (q : ℚ) : PyNum := (q.num, q.den)

/-- A Python value as stored in the driver's packet dictionaries:
`None`, a float, an int, or a string. -/
inductive Value where
  | none
  | num (p : PyNum)
  | int (n : ℤ)
  | str (s : String)
deriving DecidableEq, Repr

/-- A Python dict of string keys, modelled as an association list in
iteration (insertion) order.  All dicts built by the driver have unique
keys. -/
abbrev PDict := List (String × Value)

/-- Dictionary lookup (`pkt[k]` / `pkt.get(k)`): first binding of `k`. -/
def aget? : PDict → String → Option Value
  | [], _ => Option.none
  | (k', v) :: r, k => if k' = k then some v else aget? r k

/-- Dictionary store `pkt[k] = v`: update in place when the key exists,
append otherwise (insertion order). -/
def aset : PDict → String → Value → PDict
  | [], k, v => [(k, v)]
  | (k', v') :: r, k, v => if k' = k then (k, v) :: r else (k', v') :: aset r k v

/-- Python `==` on two values, including the numeric cross-type equality
`22 == 22.0`.  Fractions are compared by value (cross-multiplication;
denominators are positive by construction). -/
def valueEqv : Value → Value → Bool
  | Value.none, Value.none => true
  | Value.num a, Value.num b => a.1 * (b.2 : ℤ) = b.1 * (a.2 : ℤ)
  | Value.int a, Value.int b => a = b
  | Value.int a, Value.num b => a * (b.2 : ℤ) = b.1
  | Value.num a, Value.int b => a.1 = b * (a.2 : ℤ)
  | Value.str a, Value.str b => a = b
  | _, _ => false

/-- Python `==` on two dicts: same key set, and for each key equal values
(order-independent). -/
def recEqv (r1 r2 : PDict) : Bool :=
  (r1.all fun kv => match aget? r2 kv.1 with
    | some v => valueEqv kv.2 v
    | Option.none => false) &&
  (r2.all fun kv => match aget? r1 kv.1 with
    | some v => valueEqv kv.2 v
    | Option.none => false)

/-! ## Regex engine

The driver's five telegram grammars are anchored Python regexes built from
literals, greedy one-or-more character-class repetitions (`\d+`,
`[\d.\+-]+`, `.+`, ...) and fixed-width character-class groups
(`[0-9a-f]{4}`).  `matchE` is a backtracking matcher for exactly this
fragment, with Python's greedy semantics: a `+` repetition first takes the
maximal run of class characters and backs off one character at a time
until the rest of the pattern matches.  Since every pattern is anchored
(`^...`) and has no `$`, `PATTERN.search(line)` is `matchE` applied at
position 0, ignoring any unconsumed suffix. -/

/-- One element of a compiled pattern. -/
inductive RElem where
  /-- a literal string -/
  | lit (l : List Char)
  /-- a fixed-width capturing group `([c]{n})` -/
  | exact (p : Char → Bool) (n : ℕ)
  /-- a greedy one-or-more repetition `[c]+`, capturing iff `cap` -/
  | plus (p : Char → Bool) (cap : Bool)

/-- Literal match at the front of the input. -/
def matchLit : List Char → List Char → Bool
  | [], _ => true
  | _ :: _, [] => false
  | a :: as, b :: bs => a = b && matchLit as bs

/-- `descRange k = [k, k-1, ..., 1]`: the candidate lengths a greedy `+`
tries, longest first. -/
def descRange : ℕ → List ℕ
  | 0 => []
  | k + 1 => (k + 1) :: descRange k

/-- Backtracking matcher: match the pattern elements against a prefix of
`s`, returning the list of captured groups in order (or `none`). -/
def matchE : List RElem → List Char → Option (List (List Char))
  | [], _ => some []
  | RElem.lit l :: rest, s =>
      if matchLit l s then matchE rest (s.drop l.length) else Option.none
  | RElem.exact p n :: rest, s =>
      if (s.take n).length = n && (s.take n).all p then
        (matchE rest (s.drop n)).map fun gs => s.take n :: gs
      else Option.none
  | RElem.plus p cap :: rest, s =>
      (descRange (s.takeWhile p).length).findSome? fun k =>
        (matchE rest (s.drop k)).map fun gs =>
          if cap then s.take k :: gs else gs

/-- Python `haystack.find(needle) >= 0`: substring occurrence. -/
def containsSub (needle : List Char) : List Char → Bool
  | [] => matchLit needle []
  | c :: rest => matchLit needle (c :: rest) || containsSub needle rest

/-! ## Character classes of the driver's patterns -/

/-- Python `\d` (no Unicode flag): `[0-9]`. -/
def isDigitC (c : Char) : Bool := '0' ≤ c && c ≤ '9'

/-- `[0-9a-f]`. -/
def isHexLower (c : Char) : Bool := isDigitC c || ('a' ≤ c && c ≤ 'f')

/-- `[0-9a-fA-F]`. -/
def isHexAny (c : Char) : Bool := isHexLower c || ('A' ≤ c && c ≤ 'F')

/-- `[\d.\+-]` (the temperature group of the TFA_1 pattern). -/
def isTempChar (c : Char) : Bool := isDigitC c || c = '.' || c = '+' || c = '-'

/-- `[\d.-]` (the value group of the TFA_2/TFA_3/TX22/WeatherHub patterns). -/
def isNumChar (c : Char) : Bool := isDigitC c || c = '.' || c = '-'

/-- Python `.` without `DOTALL`: any character except a newline. -/
def dotC (c : Char) : Bool := c ≠ '\n'

/-! ## Numbers: `int()` and `float()` on the captured groups -/

/-- Value of a decimal digit character. -/
def charVal (c : Char) : ℕ := c.toNat - 48

/-- Value of a decimal digit string (most significant first). -/
def valNat (l : List Char) : ℕ := l.foldl (fun a c => 10 * a + charVal c) 0

/-- Python `int()` on an all-digit string with optional sign. -/
def digitsVal (l : List Char) : Except PyErr ℕ :=
  if l ≠ [] && l.all isDigitC then Except.ok (valNat l) else Except.error PyErr.valueError

/-- Python `int(s)` (whitespace never occurs in the captured groups). -/
def pyIntL (l : List Char) : Except PyErr ℤ :=
  match l with
  | [] => Except.error PyErr.valueError
  | c :: r =>
      if c = '+' then (digitsVal r).map fun n => (n : ℤ)
      else if c = '-' then (digitsVal r).map fun n => -(n : ℤ)
      else (digitsVal (c :: r)).map fun n => (n : ℤ)

/-- Body of `float()` after the optional sign: `digits [. digits]`,
rejecting anything else (`.` alone, a second sign, trailing garbage).
The value of `I.F` is the exact fraction `(I*10^|F| + F) / 10^|F|`,
negated when `neg` is set. -/
def pyFloatBody (l : List Char) (neg : Bool) : Except PyErr PyNum :=
  let d1 := l.takeWhile isDigitC
  match l.dropWhile isDigitC with
  | [] =>
      if d1 = [] then Except.error PyErr.valueError
      else
        Except.ok (mkNum (if neg then -(valNat d1 : ℤ) else (valNat d1 : ℤ)) 1)
  | c :: r2 =>
      if c = '.' then
        let d2 := r2.takeWhile isDigitC
        if r2.dropWhile isDigitC ≠ [] then Except.error PyErr.valueError
        else if d1 = [] && d2 = [] then Except.error PyErr.valueError
        else
          let m : ℤ := (valNat d1 * 10 ^ d2.length + valNat d2 : ℕ)
          Except.ok (mkNum (if neg then -m else m) (10 ^ d2.length))
      else Except.error PyErr.valueError

/-- Python `float(s)` on the character set `[\d.+-]` that the captured
groups can contain (exponents, `inf`, `nan`, whitespace cannot occur). -/
def pyFloatL (l : List Char) : Except PyErr PyNum :=
  match l with
  | [] => Except.error PyErr.valueError
  | c :: r =>
      if c = '+' then pyFloatBody r false
      else if c = '-' then pyFloatBody r true
      else pyFloatBody (c :: r) false

/-! ## Small string utilities (list-level stand-ins for Python methods) -/

/-- Python `s.split('.')` at the character-list level. -/
def splitParts : List Char → List (List Char)
  | [] => [[]]
  | c :: r =>
      let rest := splitParts r
      if c = '.' then [] :: rest
      else
        match rest with
        | [] => [[c]]
        | h :: t => (c :: h) :: t

/-- Python `s.split('.')`. -/
def splitDot (s : String) : List String := (splitParts s.data).map String.mk

/-- Python whitespace (`str.strip()` default set). -/
def pyIsSpace (c : Char) : Bool :=
  c = ' ' || c = '\t' || c = '\n' || c = '\r' || c = '\x0b' || c = '\x0c'

/-- Python `s.strip()`. -/
def trimPy (s : String) : String :=
  String.mk (((s.data.dropWhile pyIsSpace).reverse.dropWhile pyIsSpace).reverse)

/-- Python `s.upper()` (ASCII, as the sensor ids are hex strings). -/
def upperStr (s : String) : String := String.mk (s.data.map Char.toUpper)

/-! ## The five telegram grammars

Compiled forms of the `IDENTIFIER` / `PATTERN` pairs of the packet
classes, element by element.  Group numbering follows the Python source.
-/

/-- `TFA_1Packet.IDENTIFIER = "%  seq "`. -/
def TFA_1_IDENTIFIER : List Char := "%  seq ".data

/-- `TFA_1Packet.PATTERN`:
`^#\d+ ([\d]+)  .+ID ([0-9a-f]{4}) ([\d.\+-]+) ([\d]+)%  seq ([0-9a-fA-F]+) lowbat ([\d]+) RSSI ([\d]+)`. -/
def TFA_1_PATTERN : List RElem := [
  RElem.lit ['#'],
  RElem.plus isDigitC false,
  RElem.lit [' '],
  RElem.plus isDigitC true,
  RElem.lit [' ', ' '],
  RElem.plus dotC false,
  RElem.lit "ID ".data,
  RElem.exact isHexLower 4,
  RElem.lit [' '],
  RElem.plus isTempChar true,
  RElem.lit [' '],
  RElem.plus isDigitC true,
  RElem.lit "%  seq ".data,
  RElem.plus isHexAny true,
  RElem.lit " lowbat ".data,
  RElem.plus isDigitC true,
  RElem.lit " RSSI ".data,
  RElem.plus isDigitC true]

/-- `[09]` (one character). -/
def isZeroNine (c : Char) : Bool := c = '0' || c = '9'

/-- `[0-4]` (one character). -/
def isSubtype (c : Char) : Bool := '0' ≤ c && c ≤ '4'

/-- `[1-5c-e]` (one character, WeatherHub type nibble). -/
def isWhType (c : Char) : Bool := ('1' ≤ c && c ≤ '5') || ('c' ≤ c && c ≤ 'e')

/-- Shared tail of the TFA_2 / TFA_3 / TX22 patterns after their
`ID <n>000` literal:
`([09])([0-9a-f]{2})([0-4]) ([\d.-]+) ([\d]+) ([\d]+) ([\d]+) RSSI ([\d]+) Offset ([\d]+)kHz`. -/
def TFA_23_TAIL : List RElem := [
  RElem.exact isZeroNine 1,
  RElem.exact isHexLower 2,
  RElem.exact isSubtype 1,
  RElem.lit [' '],
  RElem.plus isNumChar true,
  RElem.lit [' '],
  RElem.plus isDigitC true,
  RElem.lit [' '],
  RElem.plus isDigitC true,
  RElem.lit [' '],
  RElem.plus isDigitC true,
  RElem.lit " RSSI ".data,
  RElem.plus isDigitC true,
  RElem.lit " Offset ".data,
  RElem.plus isDigitC true,
  RElem.lit "kHz".data]

/-- Common head `^#\d+ ([\d]+)  .+` of all five patterns, followed by a
literal. -/
def patternHead (l : List Char) : List RElem := [
  RElem.lit ['#'],
  RElem.plus isDigitC false,
  RElem.lit [' '],
  RElem.plus isDigitC true,
  RElem.lit [' ', ' '],
  RElem.plus dotC false,
  RElem.lit l]

/-- `TFA_2Packet.IDENTIFIER = "ID 1000"`. -/
def TFA_2_IDENTIFIER : List Char := "ID 1000".data

/-- `TFA_2Packet.PATTERN` (`^#\d+ ([\d]+)  .+ID 1000` then the shared tail). -/
def TFA_2_PATTERN : List RElem := patternHead "ID 1000".data ++ TFA_23_TAIL

/-- `TFA_3Packet.IDENTIFIER = "ID 2000"`. -/
def TFA_3_IDENTIFIER : List Char := "ID 2000".data

/-- `TFA_3Packet.PATTERN`. -/
def TFA_3_PATTERN : List RElem := patternHead "ID 2000".data ++ TFA_23_TAIL

/-- `TX22Packet.IDENTIFIER = "ID3000"` (no space, unlike its pattern). -/
def TX22_IDENTIFIER : List Char := "ID3000".data

/-- `TX22Packet.PATTERN` (`.+ID 3000` -- with a space). -/
def TX22_PATTERN : List RElem := patternHead "ID 3000".data ++ TFA_23_TAIL

/-- `WeatherHubPacket.IDENTIFIER = " {10}"`: a literal five-character
string (it is searched with `payload.find`, not as a regex, so it never
denotes "ten spaces"). -/
def WH_IDENTIFIER : List Char := " {10}".data

/-- `WeatherHubPacket.PATTERN`:
`^#\d+ ([\d]+)  .+([0-9a-f]{12})([1-5c-e]) ([\d.-]+) ([\d]+) ([\d]+) ([\d]+) ([\d]+) ([\d]+)`. -/
def WH_PATTERN : List RElem := [
  RElem.lit ['#'],
  RElem.plus isDigitC false,
  RElem.lit [' '],
  RElem.plus isDigitC true,
  RElem.lit [' ', ' '],
  RElem.plus dotC false,
  RElem.exact isHexLower 12,
  RElem.exact isWhType 1,
  RElem.lit [' '],
  RElem.plus isNumChar true,
  RElem.lit [' '],
  RElem.plus isDigitC true,
  RElem.lit [' '],
  RElem.plus isDigitC true,
  RElem.lit [' '],
  RElem.plus isDigitC true,
  RElem.lit [' '],
  RElem.plus isDigitC true,
  RElem.lit [' '],
  RElem.plus isDigitC true]

/-! ## Packet construction -/

/-- `str()` of a value, as used by `TFA.insert_ids` on the
`hardware_id` field (which the parsers only ever set to a string). -/
def valueStr : Value → String
  | Value.str s => s
  | Value.int n => toString n
  | Value.num q => toString q
  | Value.none => "None"

/-- `Packet.add_identifiers(pkt, sensor_id, packet_type)`: move `dateTime`
and `usUnits` to the front, and qualify every other field name as
`<name>.<sensor_id>.<packet_type>`, in iteration order. -/
def add_identifiers (pkt : PDict) (sensor_id packet_type : String) : PDict :=
  (match aget? pkt "dateTime" with
   | some v => [("dateTime", v)]
   | Option.none => []) ++
  (match aget? pkt "usUnits" with
   | some v => [("usUnits", v)]
   | Option.none => []) ++
  ((pkt.filter fun kv => kv.1 ≠ "dateTime" && kv.1 ≠ "usUnits").map
    fun kv => (kv.1 ++ "." ++ sensor_id ++ "." ++ packet_type, kv.2))

/-- `TFA.insert_ids(pkt, pkt_type)`: pop `hardware_id` (default `'0000'`),
upper-case it, and qualify the remaining fields with it. -/
def insert_ids (pkt : PDict) (pkt_type : String) : PDict :=
  let sensor_id := upperStr (match aget? pkt "hardware_id" with
    | some v => valueStr v
    | Option.none => "0000")
  add_identifiers (pkt.filter fun kv => kv.1 ≠ "hardware_id") sensor_id pkt_type

/-- `weewx.METRIC` (the metric unit-system tag, `0x10`). -/
def METRIC : ℤ := 16

/-- `TFA_1Packet.parse_text(payload, lines)`: run the TFA_1 pattern on the
first line; on a structural match extract the typed fields (humidity only
when its group is not the string `'0'`), qualify them, and pop the line.
`float()` on the temperature group is the one call that can raise; the
line is then not consumed (the `lines.pop(0)` is skipped by the
exception).  On no structural match the (empty) packet dict is returned
and the line is popped. -/
def TFA_1Packet_parse_text (payload : String) (lines : List String) :
    Except PyErr (PDict × List String) :=
  match lines with
  | [] => Except.error PyErr.indexError
  | line :: restLines =>
    match matchE TFA_1_PATTERN line.data with
    | some [g1, g2, g3, g4, g5, g6, g7] =>
        match pyIntL g1 with
        | Except.error e => Except.error e
        | Except.ok dt =>
          match pyFloatL g3 with
          | Except.error e => Except.error e
          | Except.ok temp =>
            match (if g4 = ['0'] then Except.ok ([] : PDict)
                   else (pyFloatL g4).map fun h => [("humidity", Value.num h)]) with
            | Except.error e => Except.error e
            | Except.ok humPart =>
              match pyFloatL g6 with
              | Except.error e => Except.error e
              | Except.ok lowbat =>
                match pyFloatL g7 with
                | Except.error e => Except.error e
                | Except.ok rssi =>
                  let _ := g5  -- the sequence group is extracted but not stored
                  let pkt : PDict :=
                    [("dateTime", Value.int dt), ("usUnits", Value.int METRIC),
                     ("hardware_id", Value.str (String.mk g2)),
                     ("temperature", Value.num temp)] ++ humPart ++
                    [("lowbat", Value.num lowbat), ("rssi", Value.num rssi)]
                  Except.ok (insert_ids pkt "TFA_1Packet", restLines)
    | some _ => Except.error PyErr.indexError  -- unreachable: the pattern has 7 groups
    | Option.none => Except.ok ([], restLines)

/-- `TFA_2Packet.parse_text(payload, lines)`: parsing is not implemented;
on a structural match `insert_ids` is applied to an empty dict (yielding
an empty dict), otherwise the dict stays empty; the line is always
popped. -/
def TFA_2Packet_parse_text (payload : String) (lines : List String) :
    Except PyErr (PDict × List String) :=
  match lines with
  | [] => Except.error PyErr.indexError
  | line :: restLines =>
    match matchE TFA_2_PATTERN line.data with
    | some _ => Except.ok (insert_ids [] "TFA_2Packet", restLines)
    | Option.none => Except.ok ([], restLines)

/-- `TFA_3Packet.parse_text(payload, lines)`: same shape as TFA_2. -/
def TFA_3Packet_parse_text (payload : String) (lines : List String) :
    Except PyErr (PDict × List String) :=
  match lines with
  | [] => Except.error PyErr.indexError
  | line :: restLines =>
    match matchE TFA_3_PATTERN line.data with
    | some _ => Except.ok (insert_ids [] "TFA_3Packet", restLines)
    | Option.none => Except.ok ([], restLines)

/-- `TX22Packet.parse_text(ts, payload, lines)`: NOTE the three-parameter
signature retained from the base `Packet` class; every other parser takes
`(payload, lines)`.  The factory's two-argument call therefore raises
`TypeError` before this body ever runs (see `PacketFactory_parse_text`). -/
def TX22Packet_parse_text (ts payload : String) (lines : List String) :
    Except PyErr (PDict × List String) :=
  match lines with
  | [] => Except.error PyErr.indexError
  | line :: restLines =>
    match matchE TX22_PATTERN line.data with
    | some _ => Except.ok (insert_ids [] "TX22Packet", restLines)
    | Option.none => Except.ok ([], restLines)

/-- `WeatherHubPacket.parse_text(payload, lines)`: same shape as TFA_2. -/
def WeatherHubPacket_parse_text (payload : String) (lines : List String) :
    Except PyErr (PDict × List String) :=
  match lines with
  | [] => Except.error PyErr.indexError
  | line :: restLines =>
    match matchE WH_PATTERN line.data with
    | some _ => Except.ok (insert_ids [] "WeatherHubPacket", restLines)
    | Option.none => Except.ok ([], restLines)

/-- `PacketFactory.parse_text(lines)`: strip the first line; if non-empty,
dispatch on the first packet class whose `IDENTIFIER` occurs in the
stripped payload (in the fixed `KNOWN_PACKETS` order) and call its
`parse_text(payload, lines)`; the TX22 entry raises `TypeError` there
because `TX22Packet.parse_text` expects `(ts, payload, lines)`.  With no
identifier match, or an empty payload, pop the line and return `None`. -/
def PacketFactory_parse_text (lines : List String) :
    Except PyErr (Option PDict × List String) :=
  match lines with
  | [] => Except.error PyErr.indexError
  | line :: restLines =>
    let payload := trimPy line
    if payload.data ≠ [] then
      if containsSub TFA_1_IDENTIFIER payload.data then
        (TFA_1Packet_parse_text payload (line :: restLines)).map
          fun pr => (some pr.1, pr.2)
      else if containsSub TFA_2_IDENTIFIER payload.data then
        (TFA_2Packet_parse_text payload (line :: restLines)).map
          fun pr => (some pr.1, pr.2)
      else if containsSub TFA_3_IDENTIFIER payload.data then
        (TFA_3Packet_parse_text payload (line :: restLines)).map
          fun pr => (some pr.1, pr.2)
      else if containsSub TX22_IDENTIFIER payload.data then
        -- `parser.parse_text(payload, lines)` with `parser = TX22Packet`:
        -- the call itself raises TypeError (missing the `lines` argument).
        Except.error PyErr.typeError
      else if containsSub WH_IDENTIFIER payload.data then
        (WeatherHubPacket_parse_text payload (line :: restLines)).map
          fun pr => (some pr.1, pr.2)
      else Except.ok (Option.none, restLines)
    else Except.ok (Option.none, restLines)

/-- `PacketFactory.create(lines)` with explicit fuel: call `parse_text`
until the block is empty, collecting every non-`None` result (including
empty dicts).  `parse_text` removes exactly the head line on every
non-raising path, so `lines.length` fuel is exact. -/
def createFuel : ℕ → List String → Except PyErr (List PDict)
  | 0, _ => Except.ok []
  | _, [] => Except.ok []
  | f + 1, line :: rest =>
    match PacketFactory_parse_text (line :: rest) with
    | Except.error e => Except.error e
    | Except.ok (pkt?, rest') =>
      match createFuel f rest' with
      | Except.error e => Except.error e
      | Except.ok pkts =>
        Except.ok (match pkt? with
          | some pkt => pkt :: pkts
          | Option.none => pkts)

/-- `PacketFactory.create(lines)`. -/
def PacketFactory_create (lines : List String) : Except PyErr (List PDict) :=
  createFuel lines.length lines

/-! ## Identifier router (`fnmatch` glob semantics, POSIX case rules) -/

/-- Scan a bracket-expression body for its closing `]`, returning
(body, rest-of-pattern). -/
def bscan : List Char → Option (List Char × List Char)
  | [] => Option.none
  | ']' :: t => some ([], t)
  | c :: t => (bscan t).map fun pr => (c :: pr.1, pr.2)

/-- Split off a bracket-expression body after a `[`, with `fnmatch`'s
scan rule: a `!` directly after the `[`, and a `]` directly after that
optional `!`, belong to the body. -/
def bracketSplit (ps : List Char) : Option (List Char × List Char) :=
  match ps with
  | '!' :: ']' :: t => (bscan t).map fun pr => ('!' :: ']' :: pr.1, pr.2)
  | '!' :: t => (bscan t).map fun pr => ('!' :: pr.1, pr.2)
  | ']' :: t => (bscan t).map fun pr => (']' :: pr.1, pr.2)
  | t => bscan t

/-- Membership of a character in a (non-negated) bracket-class body:
`a-b` ranges, other characters literal (a `-` first or last is literal). -/
def classMem : List Char → Char → Bool
  | x :: '-' :: y :: rest, c => (x ≤ c && c ≤ y) || classMem rest c
  | x :: rest, c => (x = c) || classMem rest c
  | [], _ => false

/-- Bracket-class match, handling the leading `!` negation. -/
def classMatch (body : List Char) (c : Char) : Bool :=
  match body with
  | '!' :: rest => !(classMem rest c)
  | _ => classMem body c

/-- Fuelled glob matcher (`*`, `?`, bracket classes, full-string match) --
the semantics of `fnmatch.fnmatch` on POSIX.  Every step shortens
pattern-length + string-length, so `p.length + s.length + 1` fuel is
exact. -/
def globF : ℕ → List Char → List Char → Bool
  | 0, _, _ => false
  | _ + 1, [], s => s.isEmpty
  | f + 1, p :: ps, s =>
      if p = '*' then
        globF f ps s ||
          (match s with
           | [] => false
           | _ :: s' => globF f (p :: ps) s')
      else if p = '?' then
        match s with
        | [] => false
        | _ :: s' => globF f ps s'
      else if p = '[' then
        match bracketSplit ps with
        | some (body, rest) =>
            (match s with
             | [] => false
             | c :: s' => classMatch body c && globF f rest s')
        | Option.none =>
            -- unterminated `[` is a literal `[`
            (match s with
             | [] => false
             | c :: s' => (c = '[') && globF f ps s')
      else
        match s with
        | [] => false
        | c :: s' => (c = p) && globF f ps s'

/-- `fnmatch.fnmatch(value, pattern)` (POSIX: no case folding). -/
def globMatch (p s : List Char) : Bool := globF (p.length + s.length + 1) p s

/-- `TFRCDriver._part_match(pattern, value)`:
`fnmatch.filter([value], pattern)` is non-empty iff the value matches. -/
def part_match (pattern value : String) : Bool := globMatch pattern.data value.data

/-- The `for k in keylist` loop of `TFRCDriver._find_match` when the
pattern split into exactly 3 parts `p0.p1.p2`: the first key whose own 3
parts all glob-match, or (`elif`) which equals `p0` outright, wins. -/
def findLoop (p0 p1 p2 : String) : List String → Option String
  | [] => Option.none
  | k :: ks =>
      match splitDot k with
      | [k0, k1, k2] =>
          if part_match p0 k0 && part_match p1 k1 && part_match p2 k2 then some k
          else if p0 = k then some k
          else findLoop p0 p1 p2 ks
      | _ =>
          if p0 = k then some k
          else findLoop p0 p1 p2 ks

/-- `TFRCDriver._find_match(pattern, keylist)`: exact membership first;
otherwise the part-wise loop runs only when the pattern splits into
exactly 3 dot-separated parts. -/
def find_match (pattern : String) (keylist : List String) : Option String :=
  if pattern ∈ keylist then some pattern
  else
    match splitDot pattern with
    | [p0, p1, p2] => findLoop p0 p1 p2 keylist
    | _ => Option.none

/-- `TFRCDriver.map_to_fields(pkt, sensor_map)`: route each sensor-map
entry (skipping falsy labels -- `None` or the empty string); if anything
was routed, copy `dateTime` and `usUnits` from the source packet
(`pkt[k]`, raising `KeyError` when absent). -/
def map_to_fields (pkt : PDict) (sensor_map : List (String × String)) :
    Except PyErr PDict :=
  let packet := sensor_map.foldl
    (fun acc nm =>
      match find_match nm.2 (pkt.map Prod.fst) with
      | some label =>
          if label ≠ "" then aset acc nm.1 ((aget? pkt label).getD Value.none)
          else acc
      | Option.none => acc) []
  if packet = [] then Except.ok []
  else
    match aget? pkt "dateTime" with
    | Option.none => Except.error PyErr.keyError
    | some dv =>
      match aget? pkt "usUnits" with
      | Option.none => Except.error PyErr.keyError
      | some uv =>
        Except.ok (aset (aset packet "dateTime" dv) "usUnits" uv)

/-! ## Delta engine -/

/-- Python `>=` on two packet values (Python 2 rules: `None` sorts below
everything, numbers compare numerically across int/float, numbers sort
below strings).  Only numeric comparisons are reachable from the parsers. -/
def pyGe : Value → Value → Bool
  | Value.none, Value.none => true
  | Value.none, _ => false
  | _, Value.none => true
  | Value.int a, Value.int b => b ≤ a
  | Value.num a, Value.num b => b.1 * (a.2 : ℤ) ≤ a.1 * (b.2 : ℤ)
  | Value.int a, Value.num b => b.1 ≤ a * (b.2 : ℤ)
  | Value.num a, Value.int b => b * (a.2 : ℤ) ≤ a.1
  | Value.str a, Value.str b => b ≤ a
  | Value.str _, _ => true
  | _, Value.str _ => false

/-- Python `-` on two packet values; non-numeric operands raise
`TypeError`. -/
def pySub : Value → Value → Except PyErr Value
  | Value.int a, Value.int b => Except.ok (Value.int (a - b))
  | Value.num a, Value.num b =>
      Except.ok (Value.num (mkNum (a.1 * (b.2 : ℤ) - b.1 * (a.2 : ℤ)) (a.2 * b.2)))
  | Value.int a, Value.num b =>
      Except.ok (Value.num (mkNum (a * (b.2 : ℤ) - b.1) b.2))
  | Value.num a, Value.int b =>
      Except.ok (Value.num (mkNum (a.1 - b * (a.2 : ℤ)) a.2))
  | _, _ => Except.error PyErr.typeError

/-- `TFRCDriver._calculate_delta(label, newtotal, oldtotal)`: `None`
unless both totals are non-`None` and `newtotal >= oldtotal`, in which
case the difference. -/
def calculate_delta (newtotal oldtotal : Value) : Except PyErr Value :=
  match newtotal, oldtotal with
  | Value.none, _ => Except.ok Value.none
  | _, Value.none => Except.ok Value.none
  | a, b => if pyGe a b then pySub a b else Except.ok Value.none

/-- `TFRCDriver._calculate_deltas(pkt)` over an explicit delta spec and
counter state: for each `(k, label)` pair with `label` present in the
packet, store the delta under `k` and then the packet's (possibly just
overwritten, when `k = label`) value of `label` as the new baseline. -/
def calculate_deltas : List (String × String) → PDict → PDict →
    Except PyErr (PDict × PDict)
  | [], pkt, counters => Except.ok (pkt, counters)
  | (k, label) :: rest, pkt, counters =>
      if label ∈ pkt.map Prod.fst then
        match calculate_delta ((aget? pkt label).getD Value.none)
            ((aget? counters label).getD Value.none) with
        | Except.error e => Except.error e
        | Except.ok d =>
            let pkt' := aset pkt k d
            let counters' := aset counters label ((aget? pkt' label).getD Value.none)
            calculate_deltas rest pkt' counters'
      else calculate_deltas rest pkt counters

/-- `TFRCDriver.DEFAULT_DELTAS`. -/
def DEFAULT_DELTAS : List (String × String) :=
  [("rain", "rain_total"), ("strikes", "strikes_total")]

/-! ## Driver loop (`genLoopPackets`) -/

/-- One mapped packet through the yield logic of `genLoopPackets`:
skip when empty (`if packet:`); skip when `==` to the stored last packet;
otherwise store it as last, run the delta engine (which mutates the very
object just stored -- the emitted record and the stored last record are
one and the same), and yield it.  Returns (emitted?, counters, last). -/
def emitStep (deltas : List (String × String)) (counters : PDict)
    (last : Option PDict) (mapped : PDict) :
    Except PyErr (Option PDict × PDict × Option PDict) :=
  if mapped = [] then Except.ok (Option.none, counters, last)
  else if (match last with
           | Option.none => true
           | some lp => !(recEqv mapped lp)) then
    match calculate_deltas deltas mapped counters with
    | Except.error e => Except.error e
    | Except.ok (m', c') => Except.ok (some m', c', some m')
  else Except.ok (Option.none, counters, last)

/-- The suppression/delta/yield loop of `genLoopPackets` over a stream of
already-mapped records. -/
def driveMapped (deltas : List (String × String)) :
    PDict → Option PDict → List PDict → Except PyErr (List PDict)
  | _, _, [] => Except.ok []
  | counters, last, m :: rest =>
      match emitStep deltas counters last m with
      | Except.error e => Except.error e
      | Except.ok (e?, c', l') =>
          match driveMapped deltas c' l' rest with
          | Except.error e => Except.error e
          | Except.ok outs =>
              Except.ok (match e? with
                | some r => r :: outs
                | Option.none => outs)

/-- The full per-packet body of `genLoopPackets`: skip unparsed (falsy)
packets, map through the sensor map, then the yield logic. -/
def runPipeline (smap deltas : List (String × String)) :
    PDict → Option PDict → List PDict → Except PyErr (List PDict)
  | _, _, [] => Except.ok []
  | counters, last, pkt :: rest =>
      if pkt = [] then runPipeline smap deltas counters last rest
      else
        match map_to_fields pkt smap with
        | Except.error e => Except.error e
        | Except.ok mapped =>
          match emitStep deltas counters last mapped with
          | Except.error e => Except.error e
          | Except.ok (e?, c', l') =>
              match runPipeline smap deltas c' l' rest with
              | Except.error e => Except.error e
              | Except.ok outs =>
                  Except.ok (match e? with
                    | some r => r :: outs
                    | Option.none => outs)

/-- `genLoopPackets` on one framed telegram block: extract the packets
with the factory, then drive them through mapping, duplicate suppression
and the delta engine. -/
def genLoopBlock (smap deltas : List (String × String)) (counters : PDict)
    (last : Option PDict) (block : List String) : Except PyErr (List PDict) :=
  match PacketFactory_create block with
  | Except.error e => Except.error e
  | Except.ok pkts => runPipeline smap deltas counters last pkts

/-! ## Spec-side definitions

These definitions are written from the specification's words, to be
compared with the behaviour of the embedded code. -/

/-- Character for a decimal digit. -/
def digitChar (n : ℕ) : Char := Char.ofNat (48 + n % 10)

/-- Decimal digit string of a natural number (fuelled; `n + 1` fuel is
exact since `n / 10 < n` for `n ≥ 10`). -/
def natDigitsAux : ℕ → ℕ → List Char
  | 0, _ => []
  | f + 1, n =>
      if n < 10 then [digitChar n]
      else natDigitsAux f (n / 10) ++ [digitChar (n % 10)]

/-- Decimal digit string of a natural number, most significant first. -/
def natDigits (n : ℕ) : List Char := natDigitsAux (n + 1) n

/-- Rendered temperature `±I.F` of a temperature given in tenths of a
degree, as tfrec prints it (`+22.0`, `-3.5`). -/
def tempChars (t : ℤ) : List Char :=
  (if t < 0 then ['-'] else ['+']) ++
    (natDigits (t.natAbs / 10) ++ ('.' :: [digitChar (t.natAbs % 10)]))

/-- The fixed hex-dump section of a generated telegram line (the parser
treats it as opaque `.+` filler). -/
def HEXDUMP : List Char := "2d d4 65 b0 86 20 23 60 e0 56 97           ".data

/-- Modelled from the spec: the synthetic-telegram generator for the
fully-specified KlimaLoggPro grammar (spec §8): a `tfrec -D` line
`#000 <ts>  <hexdump> ID <id> <±I.F> <hum>%  seq <seq> lowbat <lb> RSSI <rssi>`
built from a known (timestamp, id, temperature-in-tenths, humidity, seq,
lowbat, rssi) tuple.  `id` is 4 lowercase hex digits and `seq` a lowercase
hex digit, as tfrec emits them. -/
def genLineL (ts : ℕ) (id : List Char) (t : ℤ) (hum : ℕ) (seq : Char)
    (lb rssi : ℕ) : List Char :=
  '#' :: ("000".data ++ (' ' :: (natDigits ts ++ ([' ', ' '] ++ (HEXDUMP ++
    ("ID ".data ++ (id ++ (' ' :: (tempChars t ++ (' ' :: (natDigits hum ++
    ("%  seq ".data ++ ([seq] ++ (" lowbat ".data ++ (natDigits lb ++
    (" RSSI ".data ++ natDigits rssi))))))))))))))))

/-- The generated telegram line as a string. -/
def genLine (ts : ℕ) (id : List Char) (t : ℤ) (hum : ℕ) (seq : Char)
    (lb rssi : ℕ) : String :=
  String.mk (genLineL ts id t hum seq lb rssi)

/-- The suffix of a generated line after its first `ID ` literal (the part
the TFA_1 pattern consumes after the greedy `.+`). -/
def genTail (id : List Char) (t : ℤ) (hum : ℕ) (seq : Char)
    (lb rssi : ℕ) : List Char :=
  id ++ (' ' :: (tempChars t ++ (' ' :: (natDigits hum ++
    ("%  seq ".data ++ ([seq] ++ (" lowbat ".data ++ (natDigits lb ++
    (" RSSI ".data ++ natDigits rssi)))))))))

/-- The suffix of `TFA_1_PATTERN` after its `ID ` literal. -/
def genPatTail : List RElem := [
  RElem.exact isHexLower 4,
  RElem.lit [' '],
  RElem.plus isTempChar true,
  RElem.lit [' '],
  RElem.plus isDigitC true,
  RElem.lit "%  seq ".data,
  RElem.plus isHexAny true,
  RElem.lit " lowbat ".data,
  RElem.plus isDigitC true,
  RElem.lit " RSSI ".data,
  RElem.plus isDigitC true]

/-- Modelled from the spec: the Observation the round-trip property
expects back from a generated telegram: the timestamp, the metric unit
tag, and temperature/lowbat/rssi as floats under keys qualified with the
upper-cased id, humidity omitted exactly when it is zero. -/
def expectedObs (ts : ℕ) (id : List Char) (t : ℤ) (hum lb rssi : ℕ) : PDict :=
  let up := String.mk (id.map Char.toUpper)
  [("dateTime", Value.int ts), ("usUnits", Value.int METRIC),
   ("temperature" ++ "." ++ up ++ "." ++ "TFA_1Packet", Value.num (ofQ ((t : ℚ) / 10)))] ++
  ((if hum ≠ 0 then [("humidity" ++ "." ++ up ++ "." ++ "TFA_1Packet", Value.num (ofQ (hum : ℚ)))] else []) ++
   [("lowbat" ++ "." ++ up ++ "." ++ "TFA_1Packet", Value.num (ofQ (lb : ℚ))),
    ("rssi" ++ "." ++ up ++ "." ++ "TFA_1Packet", Value.num (ofQ (rssi : ℚ)))])

/-- Modelled from the spec: the delta engine's specified behaviour on a
sequence of records carrying totals (spec §4.4 / §8): no delta on the
first observation of a counter, the arithmetic difference on a
non-decreasing step, no delta on a decreasing step, and the baseline
advancing to the new total in every case. -/
def expectedDeltas (d : String) : Option ℚ → List (PDict × ℚ) → List PDict
  | _, [] => []
  | prev, (r, t) :: rest =>
      aset r d (match prev with
        | Option.none => Value.none
        | some p => if p ≤ t then Value.num (ofQ (t - p)) else Value.none) ::
      expectedDeltas d (some t) rest

/-- The delta engine applied to each record of a stream in turn, threading
the counter state (the per-cycle behaviour of `genLoopPackets`). -/
def calcDeltasSeq (deltas : List (String × String)) :
    PDict → List PDict → Except PyErr (List PDict × PDict)
  | st, [] => Except.ok ([], st)
  | st, pkt :: rest =>
      match calculate_deltas deltas pkt st with
      | Except.error e => Except.error e
      | Except.ok (pkt', st') =>
          match calcDeltasSeq deltas st' rest with
          | Except.error e => Except.error e
          | Except.ok (outs, stF) => Except.ok (pkt' :: outs, stF)

/-- Modelled from the spec: "some key in the observation satisfies
shell-glob matching of all three pattern parts against the corresponding
key parts independently" (claim C3). -/
def globParts3 (pattern k : String) : Bool :=
  match splitDot pattern, splitDot k with
  | [p0, p1, p2], [k0, k1, k2] =>
      part_match p0 k0 && part_match p1 k1 && part_match p2 k2
  | _, _ => false

/-- The selection predicate the code actually implements inside the
3-part loop: a part-wise glob match, or the key equal to the pattern's
first dot-separated component. -/
def routeGood (pattern k : String) : Bool :=
  globParts3 pattern k ||
    (match splitDot pattern with
     | p0 :: _ => p0 = k
     | [] => false)

/-! ## Lemmas: lists and the matcher -/

theorem matchLit_append_self (l t : List Char) : matchLit l (l ++ t) = true := by
  induction l with
  | nil => rfl
  | cons a as ih => simp [matchLit, ih]

theorem matchLit_nil_of_ne_nil {l : List Char} (h : l ≠ []) :
    matchLit l [] = false := by
  cases l with
  | nil => exact absurd rfl h
  | cons a as => rfl

theorem matchE_lit (l t : List Char) (rest : List RElem) :
    matchE (RElem.lit l :: rest) (l ++ t) = matchE rest t := by
  simp [matchE, matchLit_append_self, List.drop_left]

theorem matchE_lit_fail {l s : List Char} {rest : List RElem}
    (h : matchLit l s = false) :
    matchE (RElem.lit l :: rest) s = Option.none := by
  simp [matchE, h]

theorem matchE_exact {p : Char → Bool} {n : ℕ} {a : List Char}
    (t : List Char) (rest : List RElem)
    (hlen : a.length = n) (hall : a.all p = true) :
    matchE (RElem.exact p n :: rest) (a ++ t) =
      (matchE rest t).map fun gs => a :: gs := by
  have htake : (a ++ t).take n = a := by
    rw [← hlen]; exact List.take_left a t
  have hdrop : (a ++ t).drop n = t := by
    rw [← hlen]; exact List.drop_left a t
  simp [matchE, htake, hdrop, hlen, hall]

theorem takeWhile_all {p : Char → Bool} {l : List Char} (h : l.all p = true) :
    l.takeWhile p = l := by
  induction l with
  | nil => rfl
  | cons a as ih =>
      simp only [List.all_cons, Bool.and_eq_true] at h
      simp [List.takeWhile_cons, h.1, ih h.2]

theorem takeWhile_append_all {p : Char → Bool} {a t : List Char}
    (ha : a.all p = true) (ht : t.takeWhile p = []) :
    (a ++ t).takeWhile p = a := by
  induction a with
  | nil => exact ht
  | cons x xs ih =>
      simp only [List.all_cons, Bool.and_eq_true] at ha
      simp [List.takeWhile_cons, ha.1, ih ha.2]

theorem dropWhile_append_all {p : Char → Bool} {a t : List Char}
    (ha : a.all p = true) (ht : t.takeWhile p = []) :
    (a ++ t).dropWhile p = t := by
  induction a with
  | nil =>
      cases t with
      | nil => rfl
      | cons c cs =>
          simp only [List.takeWhile_cons] at ht
          rcases hc : p c with _ | _
          · simp [List.dropWhile_cons, hc]
          · simp [hc] at ht
  | cons x xs ih =>
      simp only [List.all_cons, Bool.and_eq_true] at ha
      simp [List.dropWhile_cons, ha.1, ih ha.2]

theorem takeWhile_nil_of_head {p : Char → Bool} {c : Char} {t : List Char}
    (h : p c = false) : (c :: t).takeWhile p = [] := by
  simp [List.takeWhile_cons, h]

theorem findSome?_cons {α β : Type} (f : α → Option β) (a : α) (l : List α) :
    (a :: l).findSome? f =
      (match f a with
       | some b => some b
       | Option.none => l.findSome? f) := by
  rfl

theorem matchE_plus_boundary {p : Char → Bool} {cap : Bool} {a t : List Char}
    {rest : List RElem} {gs : List (List Char)}
    (hne : a ≠ []) (ha : a.all p = true) (ht : t.takeWhile p = [])
    (hok : matchE rest t = some gs) :
    matchE (RElem.plus p cap :: rest) (a ++ t) =
      some (if cap then a :: gs else gs) := by
  have htw : (a ++ t).takeWhile p = a := takeWhile_append_all ha ht
  have hdrop : (a ++ t).drop a.length = t := List.drop_left a t
  have htake : (a ++ t).take a.length = a := List.take_left a t
  rcases hl : a.length with _ | m
  · exact absurd (List.length_eq_zero.mp hl) hne
  · rw [matchE, htw, hl, descRange, findSome?_cons, ← hl, hdrop, hok, htake]
    rfl

theorem descRange_findSome?_of_fail {β : Type} {f : ℕ → Option β} {k0 : ℕ} {r : β}
    (hk0 : 1 ≤ k0) (hfail : ∀ k, k0 < k → f k = Option.none) (hok : f k0 = some r) :
    ∀ m, k0 ≤ m → (descRange m).findSome? f = some r := by
  intro m
  induction m with
  | zero => intro h; omega
  | succ m ih =>
      intro hm
      rcases Nat.lt_or_ge k0 (m + 1) with h | h
      · rw [descRange, findSome?_cons, hfail (m + 1) h]
        exact ih (by omega)
      · have : k0 = m + 1 := by omega
        subst this
        rw [descRange, findSome?_cons, hok]

theorem matchE_plus_greedy {p : Char → Bool} {cap : Bool} {a t : List Char}
    {rest : List RElem} {gs : List (List Char)}
    (hne : a ≠ []) (hall : (a ++ t).all p = true)
    (hfail : ∀ j, 1 ≤ j → matchE rest (t.drop j) = Option.none)
    (hok : matchE rest t = some gs) :
    matchE (RElem.plus p cap :: rest) (a ++ t) =
      some (if cap then a :: gs else gs) := by
  have htw : (a ++ t).takeWhile p = a ++ t := takeWhile_all hall
  have hdrop : (a ++ t).drop a.length = t := List.drop_left a t
  have htake : (a ++ t).take a.length = a := List.take_left a t
  have hk0 : 1 ≤ a.length := by
    cases a with
    | nil => exact absurd rfl hne
    | cons x xs => simp
  rw [matchE, htw]
  have hlen : (a ++ t).length = a.length + t.length := List.length_append a t
  rw [hlen]
  refine descRange_findSome?_of_fail hk0 ?_ ?_ (a.length + t.length) (by omega)
  · intro k hk
    have hdk : (a ++ t).drop k = t.drop (k - a.length) := by
      have hke : k = a.length + (k - a.length) := by omega
      conv_lhs => rw [hke]
      rw [List.drop_append]
    rw [hdk, hfail (k - a.length) (by omega)]
    rfl
  · rw [hdrop, hok, htake]
    rfl

/-! ## Lemmas: character classes and the `ID ` uniqueness argument -/

theorem dotC_of_isDigitC {c : Char} (h : isDigitC c = true) : dotC c = true := by
  rcases eq_or_ne c '\n' with rfl | hne
  · exact absurd h (by decide)
  · simp [dotC, hne]

theorem dotC_of_isHexLower {c : Char} (h : isHexLower c = true) : dotC c = true := by
  rcases eq_or_ne c '\n' with rfl | hne
  · exact absurd h (by decide)
  · simp [dotC, hne]

theorem dotC_of_isTempChar {c : Char} (h : isTempChar c = true) : dotC c = true := by
  rcases eq_or_ne c '\n' with rfl | hne
  · exact absurd h (by decide)
  · simp [dotC, hne]

theorem ne_D_of_isDigitC {c : Char} (h : isDigitC c = true) : c ≠ 'D' := by
  intro hc; subst hc; exact absurd h (by decide)

theorem ne_D_of_isHexLower {c : Char} (h : isHexLower c = true) : c ≠ 'D' := by
  intro hc; subst hc; exact absurd h (by decide)

theorem ne_D_of_isTempChar {c : Char} (h : isTempChar c = true) : c ≠ 'D' := by
  intro hc; subst hc; exact absurd h (by decide)

theorem all_dotC_of_all {p : Char → Bool} {l : List Char}
    (hpq : ∀ c, p c = true → dotC c = true) (h : l.all p = true) :
    l.all dotC = true := by
  rw [List.all_eq_true] at h ⊢
  exact fun c hc => hpq c (h c hc)

theorem not_mem_D_of_all {p : Char → Bool} {l : List Char}
    (hpq : ∀ c, p c = true → c ≠ 'D') (h : l.all p = true) : 'D' ∉ l := by
  rw [List.all_eq_true] at h
  intro hmem
  exact absurd rfl (hpq 'D' (h 'D' hmem))

/-- No strict suffix of `['I', 'D'] ++ u` begins with `"ID "` when `'D'`
does not occur in `u`: the greedy `.+` of the TFA_1 pattern therefore
backtracks to exactly the first `ID ` of a generated line. -/
theorem matchLit_ID_drop_fail {u : List Char} (hD : 'D' ∉ u) :
    ∀ j, 1 ≤ j → matchLit "ID ".data ((['I', 'D'] ++ u).drop j) = false := by
  intro j hj
  match j, hj with
  | 1, _ =>
      simp [matchLit]
  | (n + 2), _ =>
      have hdrop : (['I', 'D'] ++ u).drop (n + 2) = u.drop n := rfl
      rw [hdrop]
      rcases hu : u.drop n with _ | ⟨c, cs⟩
      · rfl
      · rcases hcs : cs with _ | ⟨d, ds⟩
        · simp [matchLit]
        · have hdmem : d ∈ u := by
            have h1 : d ∈ u.drop n := by rw [hu, hcs]; exact List.mem_cons_of_mem _ (List.mem_cons_self _ _)
            exact List.drop_subset n u h1
          have hdne : d ≠ 'D' := fun hc => hD (hc ▸ hdmem)
          simp [matchLit, eq_false (Ne.symm hdne)]

/-! ## Lemmas: decimal digits -/

theorem isDigitC_digitChar (n : ℕ) : isDigitC (digitChar n) = true := by
  unfold digitChar
  have h : n % 10 < 10 := Nat.mod_lt n (by omega)
  interval_cases h : n % 10 <;> decide

theorem charVal_digitChar (n : ℕ) : charVal (digitChar n) = n % 10 := by
  unfold digitChar charVal
  have h : n % 10 < 10 := Nat.mod_lt n (by omega)
  interval_cases h : n % 10 <;> decide

theorem valNat_append_singleton (l : List Char) (c : Char) :
    valNat (l ++ [c]) = 10 * valNat l + charVal c := by
  unfold valNat
  rw [List.foldl_append]
  rfl

theorem natDigitsAux_ne_nil {f n : ℕ} (h : n < f) : natDigitsAux f n ≠ [] := by
  induction f generalizing n with
  | zero => omega
  | succ f ih =>
      unfold natDigitsAux
      rcases Nat.lt_or_ge n 10 with h10 | h10
      · simp [h10]
      · have : ¬n < 10 := by omega
        simp only [this, if_false]
        intro hc
        exact (List.append_ne_nil_of_right_ne_nil _ (by simp)) hc

theorem natDigitsAux_all {f n : ℕ} (h : n < f) :
    (natDigitsAux f n).all isDigitC = true := by
  induction f generalizing n with
  | zero => omega
  | succ f ih =>
      unfold natDigitsAux
      rcases Nat.lt_or_ge n 10 with h10 | h10
      · simp [h10, isDigitC_digitChar]
      · have hlt : ¬n < 10 := by omega
        have hrec : n / 10 < f := by
          have := Nat.div_lt_self (by omega : 0 < n) (by omega : 1 < 10)
          omega
        simp [hlt, List.all_append, ih hrec, isDigitC_digitChar]

theorem valNat_natDigitsAux {f n : ℕ} (h : n < f) :
    valNat (natDigitsAux f n) = n := by
  induction f generalizing n with
  | zero => omega
  | succ f ih =>
      unfold natDigitsAux
      rcases Nat.lt_or_ge n 10 with h10 | h10
      · simp only [h10, if_true]
        have hv : valNat [digitChar n] = charVal (digitChar n) := by
          unfold valNat; simp
        rw [hv, charVal_digitChar, Nat.mod_eq_of_lt h10]
      · have hlt : ¬n < 10 := by omega
        have hrec : n / 10 < f := by
          have := Nat.div_lt_self (by omega : 0 < n) (by omega : 1 < 10)
          omega
        simp only [hlt, if_false]
        rw [valNat_append_singleton, ih hrec, charVal_digitChar]
        omega

theorem natDigits_ne_nil (n : ℕ) : natDigits n ≠ [] :=
  natDigitsAux_ne_nil (by omega)

theorem natDigits_all (n : ℕ) : (natDigits n).all isDigitC = true :=
  natDigitsAux_all (by omega)

theorem valNat_natDigits (n : ℕ) : valNat (natDigits n) = n :=
  valNat_natDigitsAux (by omega)

theorem natDigits_zero : natDigits 0 = ['0'] := by decide

theorem natDigits_ne_zero_iff {n : ℕ} (h : n ≠ 0) : natDigits n ≠ ['0'] := by
  intro hc
  have := valNat_natDigits n
  rw [hc] at this
  exact h (by simpa [valNat, charVal] using this.symm)

/-! ## Lemmas: fractions and number parsing -/

theorem mkNum_one (n : ℤ) : mkNum n 1 = (n, 1) := by
  unfold mkNum
  simp [Nat.gcd_one_right]

theorem toQ_ofQ (q : ℚ) : toQ (ofQ q) = q := by
  unfold toQ ofQ
  exact_mod_cast Rat.num_div_den q

theorem mkNum_eq_ofQ {n : ℤ} {d : ℕ} (hd : 0 < d) :
    mkNum n d = ofQ ((n : ℚ) / (d : ℚ)) := by
  have hq : ((n : ℚ) / (d : ℚ)) = Rat.divInt n (d : ℤ) := by
    rw [Rat.divInt_eq_div]
    norm_num
  rw [hq]
  have h1 : Rat.divInt n ((d : ℕ) : ℤ) = mkRat n d := Rat.divInt_ofNat n d
  rw [h1, Rat.mkRat_def]
  have hd0 : ¬d = 0 := by omega
  simp only [hd0, dif_neg, not_false_iff]
  rw [Rat.normalize_eq]
  rfl

theorem ofQ_natCast (n : ℕ) : ofQ ((n : ℕ) : ℚ) = ((n : ℤ), 1) := by
  unfold ofQ
  simp

theorem dropWhile_all {p : Char → Bool} {l : List Char} (h : l.all p = true) :
    l.dropWhile p = [] := by
  induction l with
  | nil => rfl
  | cons a as ih =>
      simp only [List.all_cons, Bool.and_eq_true] at h
      simp [List.dropWhile_cons, h.1, ih h.2]

theorem isDigitC_ne {c x : Char} (h : isDigitC c = true) (hx : isDigitC x = false) :
    c ≠ x := by
  intro hc
  subst hc
  rw [h] at hx
  cases hx

theorem digitsVal_of_all {l : List Char} (hne : l ≠ []) (hall : l.all isDigitC = true) :
    digitsVal l = Except.ok (valNat l) := by
  unfold digitsVal
  simp [hne, hall]

theorem pyIntL_natDigits (n : ℕ) : pyIntL (natDigits n) = Except.ok (n : ℤ) := by
  rcases hl : natDigits n with _ | ⟨c, r⟩
  · exact absurd hl (natDigits_ne_nil n)
  · have hall : (c :: r).all isDigitC = true := hl ▸ natDigits_all n
    have hc : isDigitC c = true := by
      simp only [List.all_cons, Bool.and_eq_true] at hall
      exact hall.1
    have hplus : ¬c = '+' := isDigitC_ne hc (by decide)
    have hminus : ¬c = '-' := isDigitC_ne hc (by decide)
    unfold pyIntL
    simp only [hplus, hminus, if_false]
    rw [digitsVal_of_all (by simp) hall]
    have := valNat_natDigits n
    rw [hl] at this
    rw [this]
    rfl

theorem pyFloatL_digits {l : List Char} (hne : l ≠ []) (hall : l.all isDigitC = true) :
    pyFloatL l = Except.ok ((valNat l : ℤ), 1) := by
  rcases l with _ | ⟨c, r⟩
  · exact absurd rfl hne
  · have hc : isDigitC c = true := by
      simp only [List.all_cons, Bool.and_eq_true] at hall
      exact hall.1
    have hplus : ¬c = '+' := isDigitC_ne hc (by decide)
    have hminus : ¬c = '-' := isDigitC_ne hc (by decide)
    unfold pyFloatL
    simp only [hplus, hminus, if_false]
    unfold pyFloatBody
    rw [dropWhile_all hall]
    simp only [takeWhile_all hall]
    simp [hne, mkNum_one]

theorem valNat_single_digitChar (n : ℕ) : valNat [digitChar n] = n % 10 := by
  have hv : valNat [digitChar n] = charVal (digitChar n) := by
    unfold valNat; simp
  rw [hv, charVal_digitChar]

theorem pyFloatL_tempChars (t : ℤ) :
    pyFloatL (tempChars t) = Except.ok (ofQ ((t : ℚ) / 10)) := by
  have hbody : pyFloatBody (natDigits (t.natAbs / 10) ++
      ('.' :: [digitChar (t.natAbs % 10)])) (decide (t < 0)) =
      Except.ok (mkNum (if t < 0 then -(t.natAbs : ℤ) else (t.natAbs : ℤ)) 10) := by
    unfold pyFloatBody
    have hdot : isDigitC '.' = false := by decide
    have htk : ('.' :: [digitChar (t.natAbs % 10)]).takeWhile isDigitC = [] :=
      takeWhile_nil_of_head hdot
    rw [dropWhile_append_all (natDigits_all _) htk,
        takeWhile_append_all (natDigits_all _) htk]
    have hd2tk : [digitChar (t.natAbs % 10)].takeWhile isDigitC =
        [digitChar (t.natAbs % 10)] :=
      takeWhile_all (by simp [isDigitC_digitChar])
    have hd2dw : [digitChar (t.natAbs % 10)].dropWhile isDigitC = [] :=
      dropWhile_all (by simp [isDigitC_digitChar])
    simp only [if_pos rfl, hd2tk, hd2dw]
    have hne := natDigits_ne_nil (t.natAbs / 10)
    simp only [ne_eq, not_true_eq_false, if_false, reduceIte, hne]
    have hm : (valNat (natDigits (t.natAbs / 10)) * 10 ^ ([digitChar (t.natAbs % 10)]).length
        + valNat [digitChar (t.natAbs % 10)] : ℕ) = t.natAbs := by
      rw [valNat_natDigits, valNat_single_digitChar]
      simp only [List.length_singleton, pow_one]
      omega
    simp only [List.length_singleton]
    rw [show ([digitChar (t.natAbs % 10)]).length = 1 from rfl] at hm
    simp only [pow_one] at hm ⊢
    rw [hm]
    rcases ht : decide (t < 0) with _ | _
    · simp only [Bool.false_eq_true, if_false]
      simp only [decide_eq_false_iff_not, not_lt] at ht
      have : ((t.natAbs : ℤ)) = t := Int.natAbs_of_nonneg ht
      simp [this, ht, if_neg (not_lt.mpr ht)]
    · simp only [if_true]
      simp only [decide_eq_true_eq] at ht
      have habs : ((t.natAbs : ℤ)) = -t := by
        rw [Int.ofNat_natAbs_of_nonpos (by omega)]
      simp [ht, habs]
  unfold tempChars
  rcases ht : decide (t < 0) with _ | _
  · have ht' : ¬t < 0 := by simpa using ht
    simp only [if_neg ht']
    show pyFloatL ('+' :: (natDigits (t.natAbs / 10) ++
      ('.' :: [digitChar (t.natAbs % 10)]))) = _
    unfold pyFloatL
    simp only [if_pos rfl]
    rw [show (false = decide (t < 0)) from ht.symm, hbody]
    simp only [if_neg ht']
    rw [mkNum_eq_ofQ (by omega)]
    have : ((t.natAbs : ℤ)) = t := Int.natAbs_of_nonneg (by omega)
    rw [this]
    norm_num
  · have ht' : t < 0 := by simpa using ht
    simp only [if_pos ht']
    show pyFloatL ('-' :: (natDigits (t.natAbs / 10) ++
      ('.' :: [digitChar (t.natAbs % 10)]))) = _
    unfold pyFloatL
    have hpm : ¬('-' : Char) = '+' := by decide
    simp only [hpm, if_false, if_pos rfl]
    rw [show (true = decide (t < 0)) from ht.symm, hbody]
    simp only [if_pos ht']
    have habs : -((t.natAbs : ℤ)) = t := by
      rw [Int.ofNat_natAbs_of_nonpos (by omega)]
      omega
    rw [habs, mkNum_eq_ofQ (by omega)]
    congr 2

/-! ## Lemmas: dictionaries -/

theorem aget?_aset_self (r : PDict) (k : String) (v : Value) :
    aget? (aset r k v) k = some v := by
  induction r with
  | nil => simp [aset, aget?]
  | cons kv rest ih =>
      rcases kv with ⟨k', v'⟩
      unfold aset
      rcases h : decide (k' = k) with _ | _
      · have hne : ¬k' = k := by simpa using h
        simp only [hne, if_false]
        unfold aget?
        simp [hne, ih]
      · have heq : k' = k := by simpa using h
        simp [heq, aget?]

theorem aget?_aset_ne (r : PDict) {k k' : String} (v : Value) (h : k ≠ k') :
    aget? (aset r k v) k' = aget? r k' := by
  induction r with
  | nil => simp [aset, aget?, h]
  | cons kv rest ih =>
      rcases kv with ⟨k0, v0⟩
      unfold aset
      rcases h0 : decide (k0 = k) with _ | _
      · have hne : ¬k0 = k := by simpa using h0
        simp only [hne, if_false]
        unfold aget?
        rcases h1 : decide (k0 = k') with _ | _
        · have hne1 : ¬k0 = k' := by simpa using h1
          simp [hne1, ih]
        · have heq1 : k0 = k' := by simpa using h1
          simp [heq1]
  
      · have heq : k0 = k := by simpa using h0
        subst heq
        simp only [if_pos rfl]
        unfold aget?
        simp [h]

theorem mem_keys_of_aget? {r : PDict} {k : String} {v : Value}
    (h : aget? r k = some v) : k ∈ r.map Prod.fst := by
  induction r with
  | nil => simp [aget?] at h
  | cons kv rest ih =>
      rcases kv with ⟨k0, v0⟩
      unfold aget? at h
      rcases h0 : decide (k0 = k) with _ | _
      · have hne : ¬k0 = k := by simpa using h0
        rw [if_neg hne] at h
        simp [ih h]
      · have heq : k0 = k := by simpa using h0
        simp [heq]

theorem aget?_of_not_mem {r : PDict} {k : String}
    (h : k ∉ r.map Prod.fst) : aget? r k = Option.none := by
  induction r with
  | nil => rfl
  | cons kv rest ih =>
      rcases kv with ⟨k0, v0⟩
      simp only [List.map_cons, List.mem_cons] at h
      push_neg at h
      have hne : ¬k0 = k := fun hc => h.1 hc.symm
      unfold aget?
      simp only [if_neg hne]
      exact ih h.2

theorem aget?_of_nodup {r : PDict} {k : String} {v : Value}
    (hnd : (r.map Prod.fst).Nodup) (hmem : (k, v) ∈ r) : aget? r k = some v := by
  induction r with
  | nil => simp at hmem
  | cons kv rest ih =>
      rcases kv with ⟨k0, v0⟩
      simp only [List.map_cons, List.nodup_cons] at hnd
      rcases List.mem_cons.mp hmem with heq | hmem'
      · rcases Prod.mk.injEq .. ▸ heq with ⟨h1, h2⟩
        unfold aget?
        simp [h1.symm, h2]
      · have hk : k0 ≠ k := by
          intro hc
          subst hc
          exact hnd.1 (List.mem_map.mpr ⟨(k0, v), hmem', rfl⟩)
        unfold aget?
        simp [hk, ih hnd.2 hmem']

theorem valueEqv_refl (v : Value) : valueEqv v v = true := by
  cases v <;> simp [valueEqv]

theorem recEqv_refl {r : PDict} (hnd : (r.map Prod.fst).Nodup) :
    recEqv r r = true := by
  unfold recEqv
  rw [Bool.and_self]
  rw [List.all_eq_true]
  intro kv hkv
  rw [aget?_of_nodup hnd hkv]
  exact valueEqv_refl kv.2

/-! ## Lemmas: the delta engine -/

theorem calculate_deltas_untouched {deltas : List (String × String)}
    {pkt counters : PDict}
    (h : ∀ p ∈ deltas, p.2 ∉ pkt.map Prod.fst) :
    calculate_deltas deltas pkt counters = Except.ok (pkt, counters) := by
  induction deltas with
  | nil => rfl
  | cons p rest ih =>
      rcases p with ⟨k, label⟩
      unfold calculate_deltas
      have hnm : label ∉ pkt.map Prod.fst := h (k, label) (List.mem_cons_self _ _)
      simp only [hnm, if_false, reduceIte]
      exact ih fun q hq => h q (List.mem_cons_of_mem _ hq)

/-! ## Lemmas: glob matching and the router -/

theorem globF_star : ∀ (s : List Char) (f : ℕ), s.length + 2 ≤ f →
    globF f ['*'] s = true := by
  intro s
  induction s with
  | nil =>
      intro f hf
      simp only [List.length_nil] at hf
      rcases f with _ | f'
      · omega
      rcases f' with _ | f''
      · omega
      unfold globF
      simp only [if_pos rfl]
      unfold globF
      rfl
  | cons c cs ih =>
      intro f hf
      simp only [List.length_cons] at hf
      rcases f with _ | f'
      · omega
      unfold globF
      simp only [if_pos rfl]
      rw [ih f' (by omega)]
      simp

/-- A glob pattern character with no special meaning. -/
def noSpecialChar (c : Char) : Bool := !(c = '*' || c = '?' || c = '[')

theorem globF_lit : ∀ (p : List Char), p.all noSpecialChar = true →
    ∀ (s : List Char) (f : ℕ), p.length + s.length + 1 ≤ f →
    (globF f p s = true ↔ p = s) := by
  intro p
  induction p with
  | nil =>
      intro _ s f hf
      simp only [List.length_nil] at hf
      rcases f with _ | f'
      · omega
      unfold globF
      rw [List.isEmpty_iff]
      exact ⟨Eq.symm, Eq.symm⟩
  | cons c ps ih =>
      intro hns s f hf
      simp only [List.all_cons, Bool.and_eq_true] at hns
      have hstar : ¬c = '*' := by
        intro hc; subst hc; simp [noSpecialChar] at hns
      have hq : ¬c = '?' := by
        intro hc; subst hc; simp [noSpecialChar] at hns
      have hbr : ¬c = '[' := by
        intro hc; subst hc; simp [noSpecialChar] at hns
      simp only [List.length_cons] at hf
      rcases f with _ | f'
      · omega
      unfold globF
      simp only [hstar, hq, hbr, if_false]
      cases s with
      | nil => simp
      | cons b bs =>
          have hfuel : ps.length + bs.length + 1 ≤ f' := by
            simp only [List.length_cons] at hf
            omega
          rw [Bool.and_eq_true]
          constructor
          · rintro ⟨h1, h2⟩
            have hb : b = c := by simpa using h1
            have := (ih hns.2 bs f' hfuel).mp h2
            rw [hb, this]
          · intro h
            rcases List.cons.injEq .. ▸ h with ⟨h1, h2⟩
            constructor
            · simp [h1]
            · exact (ih hns.2 bs f' hfuel).mpr h2

theorem part_match_star (v : String) : part_match "*" v = true := by
  unfold part_match globMatch
  exact globF_star v.data _ (by simp; omega)

theorem string_eq_iff_data {a b : String} : a = b ↔ a.data = b.data := by
  constructor
  · intro h; rw [h]
  · intro h
    cases a
    cases b
    exact congrArg String.mk h

theorem part_match_lit {pstr : String} (hns : pstr.data.all noSpecialChar = true)
    (v : String) : (part_match pstr v = true ↔ pstr = v) := by
  unfold part_match globMatch
  rw [globF_lit pstr.data hns v.data _ (by omega)]
  exact (string_eq_iff_data).symm

theorem findLoop_eq_find? {pattern p0 p1 p2 : String}
    (hsplit : splitDot pattern = [p0, p1, p2]) :
    ∀ ks : List String, findLoop p0 p1 p2 ks = ks.find? (routeGood pattern) := by
  intro ks
  induction ks with
  | nil => rfl
  | cons k ks ih =>
      rcases hsk : splitDot k with _ | ⟨k0, _ | ⟨k1, _ | ⟨k2, _ | ⟨k3, tl⟩⟩⟩⟩ <;>
      first
      | -- the three-part case: the loop tests the glob condition first
        (have hgk : routeGood pattern k =
            (part_match p0 k0 && part_match p1 k1 && part_match p2 k2 || decide (p0 = k)) := by
           simp only [routeGood, globParts3, hsplit, hsk]
         simp only [findLoop, hsk]
         rcases hg : part_match p0 k0 && part_match p1 k1 && part_match p2 k2 with _ | _
         · simp only [hg, Bool.false_eq_true, if_false]
           rcases hp : decide (p0 = k) with _ | _
           · have hne : ¬p0 = k := by simpa using hp
             rw [List.find?_cons_of_neg _ (by simp [hgk, hg, hp]), ← ih]
             simp [hne]
           · have heq : p0 = k := by simpa using hp
             rw [List.find?_cons_of_pos _ (by simp [hgk, hg, heq])]
             simp [heq]
         · simp only [hg, if_true]
           rw [List.find?_cons_of_pos _ (by simp [hgk, hg])])
      | -- all other shapes of the key: only the first-component fallback applies
        (have hgk : routeGood pattern k = decide (p0 = k) := by
           simp only [routeGood, globParts3, hsplit, hsk, Bool.false_or]
         simp only [findLoop, hsk]
         rcases hp : decide (p0 = k) with _ | _
         · have hne : ¬p0 = k := by simpa using hp
           rw [List.find?_cons_of_neg _ (by simp [hgk, hp]), ← ih]
           simp [hne]
         · have heq : p0 = k := by simpa using hp
           rw [List.find?_cons_of_pos _ (by simp [hgk, heq])]
           simp [heq])

/-! ## Lemmas: value-level bridges for the delta engine -/

theorem ofQ_inj {a b : ℚ} (h : ofQ a = ofQ b) : a = b := by
  have := congrArg toQ h
  rwa [toQ_ofQ, toQ_ofQ] at this

theorem cross_le_iff {an bn : ℤ} {ad bd : ℕ} (had : 0 < ad) (hbd : 0 < bd) :
    (bn * (ad : ℤ) ≤ an * (bd : ℤ)) ↔ ((bn : ℚ) / (bd : ℚ) ≤ (an : ℚ) / (ad : ℚ)) := by
  rw [div_le_div_iff (by exact_mod_cast hbd) (by exact_mod_cast had)]
  exact_mod_cast Iff.rfl

theorem pyGe_ofQ (a b : ℚ) :
    pyGe (Value.num (ofQ a)) (Value.num (ofQ b)) = decide (b ≤ a) := by
  show decide ((ofQ b).1 * ((ofQ a).2 : ℤ) ≤ (ofQ a).1 * ((ofQ b).2 : ℤ)) = decide (b ≤ a)
  have h := @cross_le_iff a.num b.num a.den b.den a.pos b.pos
  rw [Rat.num_div_den, Rat.num_div_den] at h
  exact decide_eq_decide.mpr h

theorem pySub_ofQ (a b : ℚ) :
    pySub (Value.num (ofQ a)) (Value.num (ofQ b)) =
      Except.ok (Value.num (ofQ (a - b))) := by
  show Except.ok (Value.num (mkNum ((ofQ a).1 * ((ofQ b).2 : ℤ) - (ofQ b).1 * ((ofQ a).2 : ℤ))
    ((ofQ a).2 * (ofQ b).2))) = _
  have hpos : 0 < (ofQ a).2 * (ofQ b).2 := Nat.mul_pos a.pos b.pos
  rw [mkNum_eq_ofQ hpos]
  have ha : ((a.den : ℚ)) ≠ 0 := by exact_mod_cast a.den_nz
  have hb : ((b.den : ℚ)) ≠ 0 := by exact_mod_cast b.den_nz
  have hval : (((ofQ a).1 * ((ofQ b).2 : ℤ) - (ofQ b).1 * ((ofQ a).2 : ℤ) : ℤ) : ℚ) /
      (((ofQ a).2 * (ofQ b).2 : ℕ) : ℚ) = a - b := by
    show ((a.num * (b.den : ℤ) - b.num * (a.den : ℤ) : ℤ) : ℚ) /
      ((a.den * b.den : ℕ) : ℚ) = a - b
    conv_rhs => rw [← Rat.num_div_den a, ← Rat.num_div_den b]
    push_cast
    field_simp
    ring
  rw [hval]

/-! ## Lemmas: the generated temperature string -/

theorem isTempChar_of_isDigitC {c : Char} (h : isDigitC c = true) :
    isTempChar c = true := by
  simp [isTempChar, h]

theorem isHexAny_of_isHexLower {c : Char} (h : isHexLower c = true) :
    isHexAny c = true := by
  simp [isHexAny, h]

theorem tempChars_ne_nil (t : ℤ) : tempChars t ≠ [] := by
  unfold tempChars
  split <;> simp

theorem tempChars_all (t : ℤ) : (tempChars t).all isTempChar = true := by
  unfold tempChars
  have hdigits : (natDigits (t.natAbs / 10)).all isTempChar = true := by
    rw [List.all_eq_true]
    intro c hc
    have := natDigits_all (t.natAbs / 10)
    rw [List.all_eq_true] at this
    exact isTempChar_of_isDigitC (this c hc)
  split <;>
    · simp [List.all_append, hdigits, isTempChar_of_isDigitC (isDigitC_digitChar _),
        isTempChar]
      exact Or.inl (Or.inl (Or.inl (isDigitC_digitChar _)))

theorem calculate_delta_num (a b : PyNum) :
    calculate_delta (Value.num a) (Value.num b) =
      if pyGe (Value.num a) (Value.num b) then pySub (Value.num a) (Value.num b)
      else Except.ok Value.none := rfl

/-! ## Claim theorems -/

/-- The end-to-end input line of claim C1, framed as a one-line telegram
block. -/
def C1_LINE : String :=
  "#000 1485215350  2d d4 65 b0 86 20 23 60 e0 56 97           ID 65b0 +22.0 35%  seq e lowbat 0 RSSI 81"

/-- The routing table of claim C1. -/
def C1_SENSOR_MAP : List (String × String) :=
  [("temp3", "temperature.65B0.TFA_1Packet"), ("humidity3", "humidity.65B0.TFA_1Packet")]

/-- The output record claim C1 expects (`22.0` and `35.0` as floats,
`usUnits` the metric unit tag). -/
def C1_TARGET : PDict :=
  [("dateTime", Value.int 1485215350), ("usUnits", Value.int METRIC),
   ("temp3", Value.num (22, 1)), ("humidity3", Value.num (35, 1))]

/-- C1: the driver pipeline (packet factory parse, field mapping, duplicate
suppression against an empty last-record slot, delta computation with the
default delta spec) applied to the sample line as a one-line block yields
exactly one output record, and that record equals (as a Python dict)
`{dateTime: 1485215350, usUnits: METRIC, temp3: 22.0, humidity3: 35.0}`. -/
theorem C1_end_to_end :
    (genLoopBlock C1_SENSOR_MAP DEFAULT_DELTAS [] Option.none [C1_LINE]).map
      (fun rs => rs.map fun r => recEqv r C1_TARGET) = Except.ok [true] := by
  rfl

/-- A telegram line containing the TX22 discriminator `ID3000` and none of
the earlier discriminators. -/
def C4_LINE : String := "#0 1  zzID3000 x"

/-- C4: one registry `parse` call on a block whose first line carries the
TX22 discriminator raises `TypeError` (the factory calls
`parser.parse_text(payload, lines)` but `TX22Packet.parse_text` still has
the three-parameter signature `(ts, payload, lines)`), so the line is not
consumed and the claimed never-raise/always-consume contract fails. -/
theorem C4_tx22_dispatch_raises :
    PacketFactory_parse_text [C4_LINE] = Except.error PyErr.typeError := by
  rfl

/-- C3 counterexample: with pattern `temperature.a.b` (3 parts) and key
list `["temperature"]`, no key satisfies the three-part glob condition,
yet `_find_match` selects `"temperature"` (through the `elif
pparts[0] == k` branch inside the 3-part loop) -- refuting the claimed
"selects a key if and only if some key glob-matches all three parts". -/
theorem C3_counterexample :
    find_match "temperature.a.b" ["temperature"] = some "temperature" ∧
    globParts3 "temperature.a.b" "temperature" = false := by
  exact ⟨rfl, rfl⟩

/-- C7 counterexample: pattern `temperature.x` splits into 2 parts and is
not an exact member of `["temperature"]`; the claim says the router falls
back to the pattern's first component and selects `"temperature"`, but
`_find_match` returns `None` (its first-component fallback exists only
inside the 3-part branch). -/
theorem C7_counterexample :
    (splitDot "temperature.x").length = 2 ∧
    "temperature.x" ∉ ["temperature"] ∧
    find_match "temperature.x" ["temperature"] = Option.none := by
  refine ⟨rfl, by decide, rfl⟩

/-- A routed record carrying a configured cumulative counter
(`rain_total`), used twice in a row. -/
def C6_RECORD : PDict :=
  [("dateTime", Value.int 1), ("usUnits", Value.int METRIC),
   ("rain_total", Value.num (5, 1))]

/-- C6 counterexample: two structurally identical consecutive routed
records that carry a counter field are BOTH emitted (the first emitted
record is mutated in place by the delta engine -- gaining a `rain` key --
so the second identical routed record no longer compares equal to the
stored last record), refuting "two identical consecutive records yield
one emitted record". -/
theorem C6_counterexample :
    (driveMapped DEFAULT_DELTAS [] Option.none [C6_RECORD, C6_RECORD]).map
      List.length = Except.ok 2 := by
  rfl

/-- A line whose payload contains the TFA_2 discriminator `ID 1000` and
matches the TFA_2 structural pattern. -/
def C8_LINE : String := "#1 2  x ID 10009ab0 17.2 47 12 12 RSSI 83 Offset 11kHz"

/-- C8 counterexample: this line matches the TFA_2 discriminator and its
structural pattern, yet the registry produces the completely empty
Observation `{}` -- there is no field key at all, in particular none
carrying the hardware id `9AB0` or the packet-type name, refuting the
claimed ID-qualified (but otherwise empty) Observation. -/
theorem C8_counterexample :
    (matchE TFA_2_PATTERN C8_LINE.data).isSome = true ∧
    PacketFactory_parse_text [C8_LINE] = Except.ok (some [], []) := by
  exact ⟨rfl, rfl⟩

/-- C3 (amended): for a routing pattern with exactly 3 dot-separated
parts, the router selects a key iff some key satisfies the part-wise glob
match OR equals the pattern's first dot-separated component (the `elif
pparts[0] == k` branch), the first such key winning, with an exact
full-pattern match taking precedence; and the pattern `*.*.TFA_1Packet`
glob-matches exactly the 3-part keys whose third segment is
`TFA_1Packet`. -/
theorem C3_router_amended (pattern p0 p1 p2 : String)
    (hsplit : splitDot pattern = [p0, p1, p2]) (keylist : List String) :
    (find_match pattern keylist =
      if pattern ∈ keylist then some pattern
      else keylist.find? (routeGood pattern)) ∧
    (∀ k, globParts3 "*.*.TFA_1Packet" k = true ↔
      ∃ k0 k1, splitDot k = [k0, k1, "TFA_1Packet"]) := by
  constructor
  · unfold find_match
    by_cases hmem : pattern ∈ keylist
    · simp [hmem]
    · simp only [hmem, if_false, reduceIte]
      rw [hsplit]
      exact findLoop_eq_find? hsplit keylist
  · intro k
    have hsp : splitDot "*.*.TFA_1Packet" = ["*", "*", "TFA_1Packet"] := rfl
    unfold globParts3
    rw [hsp]
    rcases hsk : splitDot k with _ | ⟨k0, _ | ⟨k1, _ | ⟨k2, _ | ⟨k3, tl⟩⟩⟩⟩ <;>
      simp only []
    · simp [hsk]
    · simp [hsk]
    · simp [hsk]
    · rw [part_match_star, part_match_star]
      have hlit := @part_match_lit "TFA_1Packet" (by decide) k2
      constructor
      · intro h
        simp only [Bool.true_and] at h
        exact ⟨k0, k1, by rw [(hlit.mp h).symm]⟩
      · rintro ⟨k0', k1', hk⟩
        simp only [List.cons.injEq, and_true] at hk
        simp only [Bool.true_and]
        exact hlit.mpr hk.2.2.symm
    · simp [hsk]

/-- C3 witness: the amended router characterization instantiated at the
pattern `temperature.65B0.TFA_1Packet` over a concrete key list. -/
theorem C3_router_amended_witness :
    (find_match "temperature.65B0.TFA_1Packet" ["x"] =
      if "temperature.65B0.TFA_1Packet" ∈ ["x"] then some "temperature.65B0.TFA_1Packet"
      else ["x"].find? (routeGood "temperature.65B0.TFA_1Packet")) ∧
    (∀ k, globParts3 "*.*.TFA_1Packet" k = true ↔
      ∃ k0 k1, splitDot k = [k0, k1, "TFA_1Packet"]) :=
  C3_router_amended "temperature.65B0.TFA_1Packet" "temperature" "65B0" "TFA_1Packet"
    rfl ["x"]

/-- C7 (amended): for a routing pattern with fewer than 3 dot-separated
parts there is no first-component fallback: only an exact whole-pattern
match selects a key, otherwise no key is selected; and a sensor-map entry
whose pattern matches no key contributes nothing -- the mapped record
stays empty and (with a single-entry map) nothing is emitted, the field
being omitted entirely. -/
theorem C7_router_fewer_parts (p : String) (hp : (splitDot p).length < 3)
    (keylist : List String) :
    (find_match p keylist = if p ∈ keylist then some p else Option.none) ∧
    (∀ (pkt : PDict) (n : String),
      find_match p (pkt.map Prod.fst) = Option.none →
      map_to_fields pkt [(n, p)] = Except.ok []) := by
  constructor
  · unfold find_match
    by_cases hmem : p ∈ keylist
    · simp [hmem]
    · simp only [hmem, if_false, reduceIte]
      rcases hsp : splitDot p with _ | ⟨a, _ | ⟨b, _ | ⟨c, tl⟩⟩⟩
      · rfl
      · rfl
      · rfl
      · rw [hsp] at hp
        simp only [List.length_cons] at hp
        omega
  · intro pkt n hnone
    unfold map_to_fields
    simp only [List.foldl_cons, List.foldl_nil, hnone]
    rfl

/-- C7 witness: the amended characterization instantiated at the 2-part
pattern `temperature.x` and a concrete packet. -/
theorem C7_router_fewer_parts_witness :
    (find_match "temperature.x" ["temperature"] =
      if "temperature.x" ∈ ["temperature"] then some "temperature.x" else Option.none) ∧
    (∀ (pkt : PDict) (n : String),
      find_match "temperature.x" (pkt.map Prod.fst) = Option.none →
      map_to_fields pkt [(n, "temperature.x")] = Except.ok []) :=
  C7_router_fewer_parts "temperature.x" (by decide) ["temperature"]

/-- C6 (amended): the duplicate filter compares a routed record against
the previously EMITTED record as it stands after delta computation (the
single-slot memory aliases the mutated object); a record equal (as a
Python dict) to that stored record is suppressed; consequently, for
records that carry none of the configured counter fields (so the delta
engine leaves them untouched), the routed stream A, A, B yields exactly
the emitted records [A, B]. -/
theorem C6_suppression_amended :
    (∀ (deltas : List (String × String)) (counters L m : PDict)
        (rest : List PDict), recEqv m L = true →
      driveMapped deltas counters (some L) (m :: rest) =
        driveMapped deltas counters (some L) rest) ∧
    (∀ (deltas : List (String × String)) (counters A B : PDict),
      A ≠ [] → B ≠ [] → (A.map Prod.fst).Nodup →
      (∀ p ∈ deltas, p.2 ∉ A.map Prod.fst) →
      (∀ p ∈ deltas, p.2 ∉ B.map Prod.fst) →
      recEqv B A = false →
      driveMapped deltas counters Option.none [A, A, B] = Except.ok [A, B]) := by
  constructor
  · intro deltas counters L m rest h
    have hstep : emitStep deltas counters (some L) m =
        Except.ok (Option.none, counters, some L) := by
      unfold emitStep
      by_cases hm : m = []
      · simp [hm]
      · simp [hm, h]
    conv_lhs => unfold driveMapped
    rw [hstep]
    rcases hrec : driveMapped deltas counters (some L) rest with e | outs <;>
      simp [hrec]
  · intro deltas counters A B hA hB hnd hUA hUB hBA
    have h1 : emitStep deltas counters Option.none A =
        Except.ok (some A, counters, some A) := by
      unfold emitStep
      simp only [hA, if_neg hA, if_true, calculate_deltas_untouched hUA]
      try rfl
    have h2 : emitStep deltas counters (some A) A =
        Except.ok (Option.none, counters, some A) := by
      unfold emitStep
      simp only [hA, if_neg hA, recEqv_refl hnd, Bool.not_true, Bool.false_eq_true,
        if_false, reduceIte]
      try rfl
    have h3 : emitStep deltas counters (some A) B =
        Except.ok (some B, counters, some B) := by
      unfold emitStep
      simp only [hB, if_neg hB, hBA, Bool.not_false, if_true,
        calculate_deltas_untouched hUB]
      try rfl
    have step : ∀ (c : PDict) (l : Option PDict) (x : PDict) (xs : List PDict)
        (e? : Option PDict) (c' : PDict) (l' : Option PDict),
        emitStep deltas c l x = Except.ok (e?, c', l') →
        driveMapped deltas c l (x :: xs) =
          (match driveMapped deltas c' l' xs with
           | Except.error e => Except.error e
           | Except.ok outs => Except.ok (match e? with
               | some r => r :: outs
               | Option.none => outs)) := by
      intro c l x xs e? c' l' hstep
      conv_lhs => unfold driveMapped
      rw [hstep]
    rw [step _ _ _ _ _ _ _ h1, step _ _ _ _ _ _ _ h2, step _ _ _ _ _ _ _ h3]
    rfl

/-- C6 amended witness: instantiation of both parts at concrete records
(a record equal to the stored last record is dropped; a counter-free
A, A, B stream yields [A, B]). -/
theorem C6_suppression_amended_witness :
    (driveMapped DEFAULT_DELTAS [] (some [("temp3", Value.num (22, 1))])
        [[("temp3", Value.num (22, 1))]] =
      driveMapped DEFAULT_DELTAS [] (some [("temp3", Value.num (22, 1))]) []) ∧
    (driveMapped DEFAULT_DELTAS [] Option.none
        [[("temp3", Value.num (22, 1))], [("temp3", Value.num (22, 1))],
         [("temp3", Value.num (23, 1))]] =
      Except.ok [[("temp3", Value.num (22, 1))], [("temp3", Value.num (23, 1))]]) := by
  constructor
  · exact C6_suppression_amended.1 DEFAULT_DELTAS [] [("temp3", Value.num (22, 1))]
      [("temp3", Value.num (22, 1))] [] (by decide)
  · exact C6_suppression_amended.2 DEFAULT_DELTAS [] [("temp3", Value.num (22, 1))]
      [("temp3", Value.num (23, 1))] (by decide) (by decide) (by decide)
      (by decide) (by decide) (by decide)

/-- C10: one step of the driver loop on an emitted record: when a mapped
record `m` is non-empty and differs from the stored last record, the
emitted record is `m'` -- `m` after delta computation (the in-place
mutation) -- and the recursion continues with the single-slot memory set
to that same `m'`, so the next routed record is compared against the
previous record including any delta fields added to it. -/
theorem C10_last_record_invariant (deltas : List (String × String))
    (counters : PDict) (last : Option PDict) (m : PDict) (rest : List PDict)
    (m' counters' : PDict) (hm : m ≠ [])
    (hlast : ∀ lp, last = some lp → recEqv m lp = false)
    (hcalc : calculate_deltas deltas m counters = Except.ok (m', counters')) :
    driveMapped deltas counters last (m :: rest) =
      (driveMapped deltas counters' (some m') rest).map fun outs => m' :: outs := by
  have hstep : emitStep deltas counters last m =
      Except.ok (some m', counters', some m') := by
    unfold emitStep
    rcases last with _ | lp
    · simp only [hm, if_neg hm, if_true, hcalc]
      try rfl
    · simp only [hm, if_neg hm, hlast lp rfl, Bool.not_false, if_true, hcalc]
      try rfl
  conv_lhs => unfold driveMapped
  rw [hstep]
  rcases hrec : driveMapped deltas counters' (some m') rest with e | outs <;>
    simp [hrec, Except.map]

/-- C10 witness: the one-step invariant at a concrete record with the
default delta spec (the emitted record gains a `rain` field and that very
record becomes the comparison slot). -/
theorem C10_last_record_invariant_witness :
    driveMapped DEFAULT_DELTAS [] Option.none [C6_RECORD] =
      (driveMapped DEFAULT_DELTAS [("rain_total", Value.num (5, 1))]
        (some (C6_RECORD ++ [("rain", Value.none)])) []).map
        fun outs => (C6_RECORD ++ [("rain", Value.none)]) :: outs :=
  C10_last_record_invariant DEFAULT_DELTAS [] Option.none C6_RECORD []
    (C6_RECORD ++ [("rain", Value.none)]) [("rain_total", Value.num (5, 1))]
    (by decide) (fun lp h => by cases h) (by rfl)

/-- C9: for a delta-spec pair `(d, c)` with `d ≠ c` and a record whose
counter field `c` holds a float, the record after `_calculate_deltas`
always contains the key `d` (never omitted), the stored baseline becomes
the record's total, and the value under `d` is the `None` placeholder
exactly when no numeric baseline previously existed for `c` or the new
total is smaller than the previous baseline. -/
theorem C9_delta_field_presence (d c : String) (hdc : d ≠ c)
    (pkt st : PDict) (qv : ℚ)
    (hq : aget? pkt c = some (Value.num (ofQ qv)))
    (hold : (aget? st c).getD Value.none = Value.none ∨
      ∃ ov : ℚ, (aget? st c).getD Value.none = Value.num (ofQ ov)) :
    ∃ v pkt', calculate_deltas [(d, c)] pkt st =
        Except.ok (pkt', aset st c (Value.num (ofQ qv))) ∧
      aget? pkt' d = some v ∧
      (v = Value.none ↔ ((aget? st c).getD Value.none = Value.none ∨
        ∃ ov : ℚ, (aget? st c).getD Value.none = Value.num (ofQ ov) ∧ qv < ov)) := by
  have hmem : c ∈ pkt.map Prod.fst := mem_keys_of_aget? hq
  have hget : (aget? pkt c).getD Value.none = Value.num (ofQ qv) := by rw [hq]; rfl
  rcases hold with hnone | ⟨ov, hov⟩
  · refine ⟨Value.none, aset pkt d Value.none, ?_, aget?_aset_self pkt d Value.none, ?_⟩
    · unfold calculate_deltas
      simp only [hmem, if_true, hget, hnone]
      unfold calculate_delta
      simp only []
      rw [aget?_aset_ne pkt Value.none hdc, hq]
      rfl
    · simp [hnone]
  · by_cases hle : ov ≤ qv
    · refine ⟨Value.num (ofQ (qv - ov)), aset pkt d (Value.num (ofQ (qv - ov))), ?_, ?_, ?_⟩
      · unfold calculate_deltas
        simp only [hmem, if_true, hget, hov]
        rw [calculate_delta_num, pyGe_ofQ]
        simp only [decide_eq_true_eq]
        rw [if_pos hle]
        simp only [pySub_ofQ]
        rw [aget?_aset_ne pkt (Value.num (ofQ (qv - ov))) hdc, hq]
        rfl
      · exact aget?_aset_self pkt d (Value.num (ofQ (qv - ov)))
      · constructor
        · intro h; cases h
        · rintro (h | ⟨ov', hov', hlt'⟩)
          · rw [hov] at h; cases h
          · rw [hov] at hov'
            have hoveq : ov = ov' := ofQ_inj (by injection hov')
            exact absurd hlt' (by rw [← hoveq]; exact not_lt.mpr hle)
    · refine ⟨Value.none, aset pkt d Value.none, ?_, aget?_aset_self pkt d Value.none, ?_⟩
      · unfold calculate_deltas
        simp only [hmem, if_true, hget, hov]
        rw [calculate_delta_num, pyGe_ofQ]
        simp only [decide_eq_true_eq]
        rw [if_neg hle]
        simp only []
        rw [aget?_aset_ne pkt Value.none hdc, hq]
        rfl
      · simp only [true_iff]
        exact Or.inr ⟨ov, hov, not_le.mp hle⟩

/-- C9 witness: instantiation with the default `rain`/`rain_total` pair,
an empty counter state (no baseline) and a record with `rain_total = 5.0`. -/
theorem C9_delta_field_presence_witness :
    ∃ v pkt', calculate_deltas [("rain", "rain_total")]
        [("rain_total", Value.num (ofQ 5))] [] =
        Except.ok (pkt', aset [] "rain_total" (Value.num (ofQ 5))) ∧
      aget? pkt' "rain" = some v ∧
      (v = Value.none ↔ ((aget? ([] : PDict) "rain_total").getD Value.none = Value.none ∨
        ∃ ov : ℚ, (aget? ([] : PDict) "rain_total").getD Value.none =
          Value.num (ofQ ov) ∧ (5 : ℚ) < ov)) :=
  C9_delta_field_presence "rain" "rain_total" (by decide)
    [("rain_total", Value.num (ofQ 5))] [] 5 rfl (Or.inl rfl)

/-- One run of `_calculate_deltas` with a single `(d, c)` spec pair,
`d ≠ c`: the delta is stored under `d` and the baseline advances to the
record's total. -/
theorem calculate_deltas_single (d c : String) (hdc : d ≠ c)
    (pkt st : PDict) (qv : ℚ)
    (hq : aget? pkt c = some (Value.num (ofQ qv))) (dv : Value)
    (hdv : calculate_delta (Value.num (ofQ qv)) ((aget? st c).getD Value.none) =
      Except.ok dv) :
    calculate_deltas [(d, c)] pkt st =
      Except.ok (aset pkt d dv, aset st c (Value.num (ofQ qv))) := by
  have hget : (aget? pkt c).getD Value.none = Value.num (ofQ qv) := by rw [hq]; rfl
  unfold calculate_deltas
  simp only [mem_keys_of_aget? hq, if_true, hget, hdv]
  rw [aget?_aset_ne pkt dv hdc, hq]
  rfl

/-- Unfolding one step of `calcDeltasSeq`. -/
theorem calcDeltasSeq_cons (deltas : List (String × String)) (st pkt : PDict)
    (rest : List PDict) (pkt' st' : PDict)
    (h : calculate_deltas deltas pkt st = Except.ok (pkt', st')) :
    calcDeltasSeq deltas st (pkt :: rest) =
      (match calcDeltasSeq deltas st' rest with
       | Except.error e => Except.error e
       | Except.ok (outs, stF) => Except.ok (pkt' :: outs, stF)) := by
  conv_lhs => unfold calcDeltasSeq
  rw [h]

/-- The delta engine applied cycle by cycle with a single `(d, c)` pair
refines the specified behaviour `expectedDeltas`, threading the baseline. -/
theorem calcDeltasSeq_single_spec (d c : String) (hdc : d ≠ c) :
    ∀ (seq : List (PDict × ℚ)) (st : PDict) (prev : Option ℚ),
    (∀ p ∈ seq, aget? p.1 c = some (Value.num (ofQ p.2))) →
    (aget? st c = prev.map fun p => Value.num (ofQ p)) →
    calcDeltasSeq [(d, c)] st (seq.map Prod.fst) =
      Except.ok (expectedDeltas d prev seq,
        seq.foldl (fun s p => aset s c (Value.num (ofQ p.2))) st) := by
  intro seq
  induction seq with
  | nil => intro st prev _ _; rfl
  | cons rt rest ih =>
      rcases rt with ⟨r, t⟩
      intro st prev hseq hst
      have hq : aget? r c = some (Value.num (ofQ t)) :=
        hseq (r, t) (List.mem_cons_self _ _)
      have hrest : ∀ p ∈ rest, aget? p.1 c = some (Value.num (ofQ p.2)) :=
        fun p hp => hseq p (List.mem_cons_of_mem _ hp)
      have hst' : aget? (aset st c (Value.num (ofQ t))) c =
          (some t).map fun p => Value.num (ofQ p) := by
        rw [aget?_aset_self]; rfl
      rcases prev with _ | p
      · have hdv : calculate_delta (Value.num (ofQ t))
            ((aget? st c).getD Value.none) = Except.ok Value.none := by
          rw [hst]; rfl
        rw [List.map_cons,
          calcDeltasSeq_cons _ _ _ _ _ _ (calculate_deltas_single d c hdc r st t hq _ hdv),
          ih (aset st c (Value.num (ofQ t))) (some t) hrest hst']
        rfl
      · have hdv : calculate_delta (Value.num (ofQ t))
            ((aget? st c).getD Value.none) =
            Except.ok (if p ≤ t then Value.num (ofQ (t - p)) else Value.none) := by
          rw [hst]
          show calculate_delta (Value.num (ofQ t)) (Value.num (ofQ p)) = _
          rw [calculate_delta_num, pyGe_ofQ]
          by_cases hle : p ≤ t
          · simp only [decide_eq_true_eq]
            rw [if_pos hle, pySub_ofQ, if_pos hle]
          · simp only [decide_eq_true_eq]
            rw [if_neg hle, if_neg hle]
        rw [List.map_cons,
          calcDeltasSeq_cons _ _ _ _ _ _ (calculate_deltas_single d c hdc r st t hq _ hdv),
          ih (aset st c (Value.num (ofQ t))) (some t) hrest hst']
        rfl

/-- C5: for a single configured `(delta, counter)` pair with distinct
names, running the delta engine over a sequence of records whose counter
field `c` carries the totals `t_i` (starting from the empty counter
state) produces exactly the records prescribed by the specification
(`expectedDeltas`): no delta on the first observation, the arithmetic
difference on every non-decreasing step, the `None` placeholder on a
decreasing step, and the stored baseline advancing to the new total in
every case (final counter state = the fold of the totals). -/
theorem C5_delta_engine (d c : String) (hdc : d ≠ c)
    (seq : List (PDict × ℚ))
    (hseq : ∀ p ∈ seq, aget? p.1 c = some (Value.num (ofQ p.2))) :
    calcDeltasSeq [(d, c)] [] (seq.map Prod.fst) =
      Except.ok (expectedDeltas d Option.none seq,
        seq.foldl (fun s p => aset s c (Value.num (ofQ p.2))) []) :=
  calcDeltasSeq_single_spec d c hdc seq [] Option.none hseq rfl

/-- C5 witness: the delta engine over totals 5, 7, 3 (`rain_total` with
the `rain` delta): no delta, then 2, then the decrease yields the `None`
placeholder while the baseline still advances to 3. -/
theorem C5_delta_engine_witness :
    calcDeltasSeq [("rain", "rain_total")] []
      ([([("rain_total", Value.num (ofQ 5))], (5 : ℚ)),
        ([("rain_total", Value.num (ofQ 7))], (7 : ℚ)),
        ([("rain_total", Value.num (ofQ 3))], (3 : ℚ))].map Prod.fst) =
      Except.ok (expectedDeltas "rain" Option.none
        [([("rain_total", Value.num (ofQ 5))], (5 : ℚ)),
         ([("rain_total", Value.num (ofQ 7))], (7 : ℚ)),
         ([("rain_total", Value.num (ofQ 3))], (3 : ℚ))],
        [([("rain_total", Value.num (ofQ 5))], (5 : ℚ)),
         ([("rain_total", Value.num (ofQ 7))], (7 : ℚ)),
         ([("rain_total", Value.num (ofQ 3))], (3 : ℚ))].foldl
          (fun s p => aset s "rain_total" (Value.num (ofQ p.2))) []) :=
  C5_delta_engine "rain" "rain_total" (by decide) _
    (by
      intro p hp
      simp only [List.mem_cons, List.not_mem_nil, or_false] at hp
      rcases hp with rfl | rfl | rfl <;> rfl)

/-- A line whose payload contains the TFA_3 discriminator `ID 2000` and
matches the TFA_3 structural pattern. -/
def C8_LINE_3 : String := "#1 2  x ID 20009ab0 17.2 47 12 12 RSSI 83 Offset 11kHz"

/-- A line whose payload matches the WeatherHub structural pattern. -/
def C8_LINE_WH : String := "#1 2  x 0b3d9ddeeabc3 0.7 270 950 0 92 0"

/-- A line whose payload contains the TX22 discriminator `ID3000` and
none of the earlier discriminators. -/
def C8_LINE_TX : String := "#5 6  zzID3000 y"

/-- C8 (amended): the three two-argument stub parsers (TFA_2, TFA_3,
WeatherHub) return the plain empty Observation `{}` on every structural
match -- `insert_ids` over an empty dict qualifies nothing, so no field
key carries the hardware id or the packet-type name; and a line routed to
the TX22 entry never reaches its parser body at all: the factory call
raises `TypeError`. -/
theorem C8_stub_parsers_amended :
    (∀ (payload line : String) (rest : List String),
      (matchE TFA_2_PATTERN line.data).isSome = true →
      TFA_2Packet_parse_text payload (line :: rest) = Except.ok ([], rest)) ∧
    (∀ (payload line : String) (rest : List String),
      (matchE TFA_3_PATTERN line.data).isSome = true →
      TFA_3Packet_parse_text payload (line :: rest) = Except.ok ([], rest)) ∧
    (∀ (payload line : String) (rest : List String),
      (matchE WH_PATTERN line.data).isSome = true →
      WeatherHubPacket_parse_text payload (line :: rest) = Except.ok ([], rest)) ∧
    (∀ (line : String) (rest : List String),
      (trimPy line).data ≠ [] →
      containsSub TFA_1_IDENTIFIER (trimPy line).data = false →
      containsSub TFA_2_IDENTIFIER (trimPy line).data = false →
      containsSub TFA_3_IDENTIFIER (trimPy line).data = false →
      containsSub TX22_IDENTIFIER (trimPy line).data = true →
      PacketFactory_parse_text (line :: rest) = Except.error PyErr.typeError) := by
  refine ⟨?_, ?_, ?_, ?_⟩
  · intro payload line rest h
    rcases hm : matchE TFA_2_PATTERN line.data with _ | gs
    · rw [hm] at h; simp at h
    · simp only [TFA_2Packet_parse_text, hm]; rfl
  · intro payload line rest h
    rcases hm : matchE TFA_3_PATTERN line.data with _ | gs
    · rw [hm] at h; simp at h
    · simp only [TFA_3Packet_parse_text, hm]; rfl
  · intro payload line rest h
    rcases hm : matchE WH_PATTERN line.data with _ | gs
    · rw [hm] at h; simp at h
    · simp only [WeatherHubPacket_parse_text, hm]; rfl
  · intro line rest hne h1 h2 h3 h4
    simp only [PacketFactory_parse_text]
    rw [if_pos hne, h1, h2, h3, h4]; rfl

/-- C8 amended witness: one concrete line per branch. -/
theorem C8_stub_parsers_amended_witness :
    TFA_2Packet_parse_text C8_LINE [C8_LINE] = Except.ok ([], []) ∧
    TFA_3Packet_parse_text C8_LINE_3 [C8_LINE_3] = Except.ok ([], []) ∧
    WeatherHubPacket_parse_text C8_LINE_WH [C8_LINE_WH] = Except.ok ([], []) ∧
    PacketFactory_parse_text [C8_LINE_TX] = Except.error PyErr.typeError :=
  ⟨C8_stub_parsers_amended.1 C8_LINE C8_LINE [] rfl,
   C8_stub_parsers_amended.2.1 C8_LINE_3 C8_LINE_3 [] rfl,
   C8_stub_parsers_amended.2.2.1 C8_LINE_WH C8_LINE_WH [] rfl,
   C8_stub_parsers_amended.2.2.2 C8_LINE_TX []
     (by decide) rfl rfl rfl rfl⟩

/-! ## Lemmas: the generated line matches the TFA_1 pattern -/

theorem all_append_of {p : Char → Bool} {a b : List Char}
    (ha : a.all p = true) (hb : b.all p = true) : (a ++ b).all p = true := by
  simp [List.all_append, ha, hb]

theorem all_cons_of {p : Char → Bool} {c : Char} {b : List Char}
    (hc : p c = true) (hb : b.all p = true) : (c :: b).all p = true := by
  simp [List.all_cons, hc, hb]

theorem not_mem_append_of {c : Char} {a b : List Char}
    (ha : c ∉ a) (hb : c ∉ b) : c ∉ a ++ b := by
  intro h
  rcases List.mem_append.mp h with h | h
  · exact ha h
  · exact hb h

theorem not_mem_cons_of {c d : Char} {b : List Char}
    (hd : c ≠ d) (hb : c ∉ b) : c ∉ d :: b := by
  intro h
  rcases List.mem_cons.mp h with h | h
  · exact hd h
  · exact hb h

/-- The tail of a generated line (after the first `ID `) matches the tail
of the TFA_1 pattern, capturing the six tail groups. -/
theorem genTail_match (id : List Char) (tv : ℤ) (hum : ℕ) (seq : Char)
    (lb rssi : ℕ) (hlen : id.length = 4) (hid : id.all isHexLower = true)
    (hseq : isHexLower seq = true) :
    matchE genPatTail (genTail id tv hum seq lb rssi) =
      some [id, tempChars tv, natDigits hum, [seq], natDigits lb, natDigits rssi] := by
  have h18 : matchE [RElem.plus isDigitC true] (natDigits rssi ++ []) =
      some [natDigits rssi] :=
    @matchE_plus_boundary isDigitC true (natDigits rssi) [] [] []
      (natDigits_ne_nil rssi) (natDigits_all rssi) rfl rfl
  rw [List.append_nil] at h18
  have h17 : matchE [RElem.lit " RSSI ".data, RElem.plus isDigitC true]
      (" RSSI ".data ++ natDigits rssi) = some [natDigits rssi] := by
    rw [matchE_lit]; exact h18
  have h16 : matchE [RElem.plus isDigitC true, RElem.lit " RSSI ".data,
        RElem.plus isDigitC true]
      (natDigits lb ++ (" RSSI ".data ++ natDigits rssi)) =
      some [natDigits lb, natDigits rssi] :=
    @matchE_plus_boundary isDigitC true (natDigits lb)
      (" RSSI ".data ++ natDigits rssi)
      [RElem.lit " RSSI ".data, RElem.plus isDigitC true] [natDigits rssi]
      (natDigits_ne_nil lb) (natDigits_all lb)
      (takeWhile_nil_of_head (by decide)) h17
  have h15 : matchE [RElem.lit " lowbat ".data, RElem.plus isDigitC true,
        RElem.lit " RSSI ".data, RElem.plus isDigitC true]
      (" lowbat ".data ++ (natDigits lb ++ (" RSSI ".data ++ natDigits rssi))) =
      some [natDigits lb, natDigits rssi] := by
    rw [matchE_lit]; exact h16
  have h14 : matchE [RElem.plus isHexAny true, RElem.lit " lowbat ".data,
        RElem.plus isDigitC true, RElem.lit " RSSI ".data,
        RElem.plus isDigitC true]
      ([seq] ++ (" lowbat ".data ++ (natDigits lb ++
        (" RSSI ".data ++ natDigits rssi)))) =
      some [[seq], natDigits lb, natDigits rssi] :=
    @matchE_plus_boundary isHexAny true [seq]
      (" lowbat ".data ++ (natDigits lb ++ (" RSSI ".data ++ natDigits rssi)))
      [RElem.lit " lowbat ".data, RElem.plus isDigitC true,
       RElem.lit " RSSI ".data, RElem.plus isDigitC true]
      [natDigits lb, natDigits rssi]
      (List.cons_ne_nil seq [])
      (all_cons_of (isHexAny_of_isHexLower hseq) rfl)
      (takeWhile_nil_of_head (by decide)) h15
  have h13 : matchE [RElem.lit "%  seq ".data, RElem.plus isHexAny true,
        RElem.lit " lowbat ".data, RElem.plus isDigitC true,
        RElem.lit " RSSI ".data, RElem.plus isDigitC true]
      ("%  seq ".data ++ ([seq] ++ (" lowbat ".data ++ (natDigits lb ++
        (" RSSI ".data ++ natDigits rssi))))) =
      some [[seq], natDigits lb, natDigits rssi] := by
    rw [matchE_lit]; exact h14
  have h12 : matchE [RElem.plus isDigitC true, RElem.lit "%  seq ".data,
        RElem.plus isHexAny true, RElem.lit " lowbat ".data,
        RElem.plus isDigitC true, RElem.lit " RSSI ".data,
        RElem.plus isDigitC true]
      (natDigits hum ++ ("%  seq ".data ++ ([seq] ++ (" lowbat ".data ++
        (natDigits lb ++ (" RSSI ".data ++ natDigits rssi)))))) =
      some [natDigits hum, [seq], natDigits lb, natDigits rssi] :=
    @matchE_plus_boundary isDigitC true (natDigits hum)
      ("%  seq ".data ++ ([seq] ++ (" lowbat ".data ++ (natDigits lb ++
        (" RSSI ".data ++ natDigits rssi)))))
      [RElem.lit "%  seq ".data, RElem.plus isHexAny true,
       RElem.lit " lowbat ".data, RElem.plus isDigitC true,
       RElem.lit " RSSI ".data, RElem.plus isDigitC true]
      [[seq], natDigits lb, natDigits rssi]
      (natDigits_ne_nil hum) (natDigits_all hum)
      (takeWhile_nil_of_head (by decide)) h13
  have h11 : matchE [RElem.lit [' '], RElem.plus isDigitC true,
        RElem.lit "%  seq ".data, RElem.plus isHexAny true,
        RElem.lit " lowbat ".data, RElem.plus isDigitC true,
        RElem.lit " RSSI ".data, RElem.plus isDigitC true]
      ([' '] ++ (natDigits hum ++ ("%  seq ".data ++ ([seq] ++
        (" lowbat ".data ++ (natDigits lb ++
          (" RSSI ".data ++ natDigits rssi))))))) =
      some [natDigits hum, [seq], natDigits lb, natDigits rssi] := by
    rw [matchE_lit]; exact h12
  have h10 : matchE [RElem.plus isTempChar true, RElem.lit [' '],
        RElem.plus isDigitC true, RElem.lit "%  seq ".data,
        RElem.plus isHexAny true, RElem.lit " lowbat ".data,
        RElem.plus isDigitC true, RElem.lit " RSSI ".data,
        RElem.plus isDigitC true]
      (tempChars tv ++ ([' '] ++ (natDigits hum ++ ("%  seq ".data ++
        ([seq] ++ (" lowbat ".data ++ (natDigits lb ++
          (" RSSI ".data ++ natDigits rssi)))))))) =
      some [tempChars tv, natDigits hum, [seq], natDigits lb, natDigits rssi] :=
    @matchE_plus_boundary isTempChar true (tempChars tv)
      ([' '] ++ (natDigits hum ++ ("%  seq ".data ++ ([seq] ++
        (" lowbat ".data ++ (natDigits lb ++
          (" RSSI ".data ++ natDigits rssi)))))))
      [RElem.lit [' '], RElem.plus isDigitC true,
       RElem.lit "%  seq ".data, RElem.plus isHexAny true,
       RElem.lit " lowbat ".data, RElem.plus isDigitC true,
       RElem.lit " RSSI ".data, RElem.plus isDigitC true]
      [natDigits hum, [seq], natDigits lb, natDigits rssi]
      (tempChars_ne_nil tv) (tempChars_all tv)
      (takeWhile_nil_of_head (by decide)) h11
  have h9 : matchE [RElem.lit [' '], RElem.plus isTempChar true,
        RElem.lit [' '], RElem.plus isDigitC true,
        RElem.lit "%  seq ".data, RElem.plus isHexAny true,
        RElem.lit " lowbat ".data, RElem.plus isDigitC true,
        RElem.lit " RSSI ".data, RElem.plus isDigitC true]
      ([' '] ++ (tempChars tv ++ ([' '] ++ (natDigits hum ++
        ("%  seq ".data ++ ([seq] ++ (" lowbat ".data ++ (natDigits lb ++
          (" RSSI ".data ++ natDigits rssi))))))))) =
      some [tempChars tv, natDigits hum, [seq], natDigits lb, natDigits rssi] := by
    rw [matchE_lit]; exact h10
  have h8 : matchE (RElem.exact isHexLower 4 :: [RElem.lit [' '],
        RElem.plus isTempChar true, RElem.lit [' '],
        RElem.plus isDigitC true, RElem.lit "%  seq ".data,
        RElem.plus isHexAny true, RElem.lit " lowbat ".data,
        RElem.plus isDigitC true, RElem.lit " RSSI ".data,
        RElem.plus isDigitC true])
      (id ++ ([' '] ++ (tempChars tv ++ ([' '] ++ (natDigits hum ++
        ("%  seq ".data ++ ([seq] ++ (" lowbat ".data ++ (natDigits lb ++
          (" RSSI ".data ++ natDigits rssi)))))))))) =
      some [id, tempChars tv, natDigits hum, [seq], natDigits lb,
        natDigits rssi] := by
    rw [matchE_exact _ _ hlen hid, h9]; rfl
  exact h8

/-- A generated line matches the full TFA_1 pattern, capturing exactly
the seven groups (the greedy `.+` backtracks to the unique `ID `). -/
theorem genLineL_match (ts : ℕ) (id : List Char) (tv : ℤ) (hum : ℕ)
    (seq : Char) (lb rssi : ℕ) (hlen : id.length = 4)
    (hid : id.all isHexLower = true) (hseq : isHexLower seq = true) :
    matchE TFA_1_PATTERN (genLineL ts id tv hum seq lb rssi) =
      some [natDigits ts, id, tempChars tv, natDigits hum, [seq],
        natDigits lb, natDigits rssi] := by
  have h7 : matchE (RElem.lit "ID ".data :: genPatTail)
      ("ID ".data ++ genTail id tv hum seq lb rssi) =
      some [id, tempChars tv, natDigits hum, [seq], natDigits lb,
        natDigits rssi] := by
    rw [matchE_lit]; exact genTail_match id tv hum seq lb rssi hlen hid hseq
  have hDid : 'D' ∉ id :=
    not_mem_D_of_all (fun c hc => ne_D_of_isHexLower hc) hid
  have hDtemp : 'D' ∉ tempChars tv :=
    not_mem_D_of_all (fun c hc => ne_D_of_isTempChar hc) (tempChars_all tv)
  have hDnat : ∀ n : ℕ, 'D' ∉ natDigits n := fun n =>
    not_mem_D_of_all (fun c hc => ne_D_of_isDigitC hc) (natDigits_all n)
  have hD : 'D' ∉ ' ' :: genTail id tv hum seq lb rssi :=
    not_mem_cons_of (by decide)
      (not_mem_append_of hDid
        (not_mem_cons_of (by decide)
          (not_mem_append_of hDtemp
            (not_mem_cons_of (by decide)
              (not_mem_append_of (hDnat hum)
                (not_mem_append_of (by decide)
                  (not_mem_append_of
                    (not_mem_cons_of (Ne.symm (ne_D_of_isHexLower hseq))
                      (List.not_mem_nil 'D'))
                    (not_mem_append_of (by decide)
                      (not_mem_append_of (hDnat lb)
                        (not_mem_append_of (by decide) (hDnat rssi)))))))))))
  have hfail : ∀ j, 1 ≤ j →
      matchE (RElem.lit "ID ".data :: genPatTail)
        (("ID ".data ++ genTail id tv hum seq lb rssi).drop j) =
        Option.none :=
    fun j hj => matchE_lit_fail (matchLit_ID_drop_fail hD j hj)
  have hdotTail : (genTail id tv hum seq lb rssi).all dotC = true :=
    all_append_of (all_dotC_of_all (fun c hc => dotC_of_isHexLower hc) hid)
      (all_cons_of (by decide)
        (all_append_of
          (all_dotC_of_all (fun c hc => dotC_of_isTempChar hc) (tempChars_all tv))
          (all_cons_of (by decide)
            (all_append_of
              (all_dotC_of_all (fun c hc => dotC_of_isDigitC hc) (natDigits_all hum))
              (all_append_of (by decide)
                (all_append_of
                  (all_cons_of (dotC_of_isHexLower hseq) rfl)
                  (all_append_of (by decide)
                    (all_append_of
                      (all_dotC_of_all (fun c hc => dotC_of_isDigitC hc)
                        (natDigits_all lb))
                      (all_append_of (by decide)
                        (all_dotC_of_all (fun c hc => dotC_of_isDigitC hc)
                          (natDigits_all rssi)))))))))))
  have hall : (HEXDUMP ++ ("ID ".data ++ genTail id tv hum seq lb rssi)).all
      dotC = true :=
    all_append_of (by decide) (all_append_of (by decide) hdotTail)
  have h6 : matchE (RElem.plus dotC false :: (RElem.lit "ID ".data :: genPatTail))
      (HEXDUMP ++ ("ID ".data ++ genTail id tv hum seq lb rssi)) =
      some [id, tempChars tv, natDigits hum, [seq], natDigits lb,
        natDigits rssi] :=
    @matchE_plus_greedy dotC false HEXDUMP
      ("ID ".data ++ genTail id tv hum seq lb rssi)
      (RElem.lit "ID ".data :: genPatTail)
      [id, tempChars tv, natDigits hum, [seq], natDigits lb, natDigits rssi]
      (by decide) hall hfail h7
  have h5 : matchE (RElem.lit [' ', ' '] :: RElem.plus dotC false ::
        RElem.lit "ID ".data :: genPatTail)
      ([' ', ' '] ++ (HEXDUMP ++ ("ID ".data ++ genTail id tv hum seq lb rssi))) =
      some [id, tempChars tv, natDigits hum, [seq], natDigits lb,
        natDigits rssi] := by
    rw [matchE_lit]; exact h6
  have h4 : matchE (RElem.plus isDigitC true :: RElem.lit [' ', ' '] ::
        RElem.plus dotC false :: RElem.lit "ID ".data :: genPatTail)
      (natDigits ts ++ ([' ', ' '] ++ (HEXDUMP ++
        ("ID ".data ++ genTail id tv hum seq lb rssi)))) =
      some [natDigits ts, id, tempChars tv, natDigits hum, [seq],
        natDigits lb, natDigits rssi] :=
    @matchE_plus_boundary isDigitC true (natDigits ts)
      ([' ', ' '] ++ (HEXDUMP ++ ("ID ".data ++ genTail id tv hum seq lb rssi)))
      (RElem.lit [' ', ' '] :: RElem.plus dotC false ::
        RElem.lit "ID ".data :: genPatTail)
      [id, tempChars tv, natDigits hum, [seq], natDigits lb, natDigits rssi]
      (natDigits_ne_nil ts) (natDigits_all ts)
      (takeWhile_nil_of_head (by decide)) h5
  have h3 : matchE (RElem.lit [' '] :: RElem.plus isDigitC true ::
        RElem.lit [' ', ' '] :: RElem.plus dotC false ::
        RElem.lit "ID ".data :: genPatTail)
      ([' '] ++ (natDigits ts ++ ([' ', ' '] ++ (HEXDUMP ++
        ("ID ".data ++ genTail id tv hum seq lb rssi))))) =
      some [natDigits ts, id, tempChars tv, natDigits hum, [seq],
        natDigits lb, natDigits rssi] := by
    rw [matchE_lit]; exact h4
  have h2 : matchE (RElem.plus isDigitC false :: RElem.lit [' '] ::
        RElem.plus isDigitC true :: RElem.lit [' ', ' '] ::
        RElem.plus dotC false :: RElem.lit "ID ".data :: genPatTail)
      ("000".data ++ ([' '] ++ (natDigits ts ++ ([' ', ' '] ++ (HEXDUMP ++
        ("ID ".data ++ genTail id tv hum seq lb rssi)))))) =
      some [natDigits ts, id, tempChars tv, natDigits hum, [seq],
        natDigits lb, natDigits rssi] :=
    @matchE_plus_boundary isDigitC false "000".data
      ([' '] ++ (natDigits ts ++ ([' ', ' '] ++ (HEXDUMP ++
        ("ID ".data ++ genTail id tv hum seq lb rssi)))))
      (RElem.lit [' '] :: RElem.plus isDigitC true ::
        RElem.lit [' ', ' '] :: RElem.plus dotC false ::
        RElem.lit "ID ".data :: genPatTail)
      [natDigits ts, id, tempChars tv, natDigits hum, [seq],
        natDigits lb, natDigits rssi]
      (by decide) (by decide) (takeWhile_nil_of_head (by decide)) h3
  have h1 : matchE (RElem.lit ['#'] :: RElem.plus isDigitC false ::
        RElem.lit [' '] :: RElem.plus isDigitC true ::
        RElem.lit [' ', ' '] :: RElem.plus dotC false ::
        RElem.lit "ID ".data :: genPatTail)
      (['#'] ++ ("000".data ++ ([' '] ++ (natDigits ts ++ ([' ', ' '] ++
        (HEXDUMP ++ ("ID ".data ++ genTail id tv hum seq lb rssi))))))) =
      some [natDigits ts, id, tempChars tv, natDigits hum, [seq],
        natDigits lb, natDigits rssi] := by
    rw [matchE_lit]; exact h2
  exact h1

/-- C2: for every (timestamp, id, temperature, humidity, seq, lowbat,
rssi) tuple in the grammar's value domain (a 4-character lowercase-hex
id and a lowercase-hex sequence digit), parsing the generated telegram
line with the TFA_1 parser recovers exactly the expected Observation:
`dateTime` is the timestamp, the field keys carry the upper-cased id,
temperature, lowbat and rssi come back as floats, and the humidity field
is omitted (not stored as zero) exactly when the generated humidity is
zero; the line is consumed. -/
theorem C2_roundtrip (ts : ℕ) (id : List Char) (tv : ℤ) (hum : ℕ)
    (seq : Char) (lb rssi : ℕ) (hlen : id.length = 4)
    (hid : id.all isHexLower = true) (hseq : isHexLower seq = true) :
    TFA_1Packet_parse_text (genLine ts id tv hum seq lb rssi)
      [genLine ts id tv hum seq lb rssi] =
      Except.ok (expectedObs ts id tv hum lb rssi, []) := by
  have hm := genLineL_match ts id tv hum seq lb rssi hlen hid hseq
  simp only [TFA_1Packet_parse_text]
  rw [show (genLine ts id tv hum seq lb rssi).data =
        genLineL ts id tv hum seq lb rssi from rfl, hm]
  by_cases hhum : hum = 0
  · subst hhum
    rw [natDigits_zero]
    simp only [pyIntL_natDigits, pyFloatL_tempChars,
      pyFloatL_digits (natDigits_ne_nil lb) (natDigits_all lb),
      pyFloatL_digits (natDigits_ne_nil rssi) (natDigits_all rssi),
      valNat_natDigits, expectedObs]
    rw [ofQ_natCast lb, ofQ_natCast rssi]
    rfl
  · simp only [pyIntL_natDigits, pyFloatL_tempChars,
      pyFloatL_digits (natDigits_ne_nil hum) (natDigits_all hum),
      pyFloatL_digits (natDigits_ne_nil lb) (natDigits_all lb),
      pyFloatL_digits (natDigits_ne_nil rssi) (natDigits_all rssi),
      valNat_natDigits, Except.map, expectedObs]
    rw [if_neg (natDigits_ne_zero_iff hhum), if_pos hhum,
      ofQ_natCast hum, ofQ_natCast lb, ofQ_natCast rssi]
    rfl

/-- C2 witness: the round trip at a concrete tuple
(1485215350, `65b0`, 22.0 degrees, 35 %, seq `e`, lowbat 0, RSSI 81). -/
theorem C2_roundtrip_witness :
    ("65b0".data.length = 4 ∧ "65b0".data.all isHexLower = true ∧
      isHexLower 'e' = true) ∧
    TFA_1Packet_parse_text (genLine 1485215350 "65b0".data 220 35 'e' 0 81)
      [genLine 1485215350 "65b0".data 220 35 'e' 0 81] =
      Except.ok (expectedObs 1485215350 "65b0".data 220 35 0 81, []) :=
  ⟨⟨by decide, by decide, by decide⟩,
   C2_roundtrip 1485215350 "65b0".data 220 35 'e' 0 81
     (by decide) (by decide) (by decide)⟩
